import Mathlib

/-!
Verification of `scripts/parse_config.py` (disconnected-resources).

The script loads a YAML configuration document, validates it against a fixed
checklist, and projects it either to JSON text or to a flat list of shell
`export` assignments.  We embed the script shallowly:

* `PyVal` models the Python values a `yaml.safe_load` of a config file can
  produce (`None`, booleans, integers, strings, lists, string-keyed dicts;
  floats are out of scope for this development).
* The dynamic operations the script uses (`in`, subscript, `dict.get`,
  truthiness, `str()`, `','.join`) are modelled in the `Except PyExc` monad so
  that Python exceptions (TypeError / AttributeError / KeyError) are explicit.
* `validate_errors` / `validate_config` embed `validate_config` line by line;
  `export_env_lines` / `export_env_vars` embed `export_env_vars` block by
  block; `export_json` and `yaml_load_str` model the JSON projection and
  re-loading (whitespace placement of `json.dumps(..., indent=2)` is elided,
  since the loader is insensitive to it; string escaping keeps the
  content-relevant escapes).
-/

inductive PyExc where
  | typeError
  | attributeError
  | keyError
deriving DecidableEq

/-- Python values occurring in parsed YAML configuration documents. -/
inductive PyVal where
  | none
  | bool (b : Bool)
  | int (n : Int)
  | str (s : String)
  | list (xs : List PyVal)
  | dict (es : List (String × PyVal))

/-- Association-list lookup, first match wins (Python dicts have unique keys). -/
def pyLookup : List (String × PyVal) → String → Option PyVal
  | [], _ => Option.none
  | (k, v) :: es, key => if k = key then some v else pyLookup es key

/-- Python truthiness (`bool(x)`). -/
def truthy : PyVal → Bool
  | .none => false
  | .bool b => b
  | .int n => n != 0
  | .str s => !s.isEmpty
  | .list xs => !xs.isEmpty
  | .dict es => !es.isEmpty

/-- Is the first list a prefix of the second (used for the Python substring
membership test on str). -/
def prefixCheck (needle hay : List Char) : Bool :=
  match needle, hay with
  | [], _ => true
  | _ :: _, [] => false
  | x :: xs, y :: ys => (x = y) && prefixCheck xs ys

/-- Is `needle` a contiguous substring of `hay` (Python `key in somestring`). -/
def subCheck (needle : List Char) : List Char → Bool
  | [] => prefixCheck needle []
  | c :: t => prefixCheck needle (c :: t) || subCheck needle t

/-- Python `key in v` for a string `key`: dict key membership, list element
membership (only `str` elements can equal a string), substring test on
strings, TypeError otherwise. -/
def pyContains (v : PyVal) (key : String) : Except PyExc Bool :=
  match v with
  | .dict es => .ok (pyLookup es key).isSome
  | .list xs => .ok (xs.any (fun x => match x with | .str s => s = key | _ => false))
  | .str s => .ok (subCheck key.data s.data)
  | _ => .error .typeError

/-- Python `v[key]` for a string `key`: dict lookup (KeyError when absent);
TypeError on every other value (string/list indices must be integers,
the rest is not subscriptable). -/
def pySubscript (v : PyVal) (key : String) : Except PyExc PyVal :=
  match v with
  | .dict es =>
    match pyLookup es key with
    | some x => .ok x
    | Option.none => .error .keyError
  | _ => .error .typeError

/-- Python `v.get(key, default)`: only dicts have `.get`; AttributeError
otherwise.  `v.get(key)` is modelled as `pyGet v key .none`. -/
def pyGet (v : PyVal) (key : String) (default : PyVal) : Except PyExc PyVal :=
  match v with
  | .dict es => .ok ((pyLookup es key).getD default)
  | _ => .error .attributeError

/-- Python `repr` for strings, as used by `str` on containers.  The escaping
Python applies inside `repr` of exotic strings is elided: the script only
interpolates scalars in practice. -/
def pyReprStr (s : String) : String := "\x27" ++ s ++ "\x27"

mutual
/-- Python `str(v)`, as used by f-string interpolation. -/
def pyToStr : PyVal → String
  | .none => "None"
  | .bool true => "True"
  | .bool false => "False"
  | .int n => toString n
  | .str s => s
  | .list xs => "[" ++ String.intercalate ", " (pyToStrList xs) ++ "]"
  | .dict es => "\x7b" ++ String.intercalate ", " (pyToStrEntries es) ++ "\x7d"

def pyToStrList : List PyVal → List String
  | [] => []
  | x :: xs =>
    (match x with | .str s => pyReprStr s | v => pyToStr v) :: pyToStrList xs

def pyToStrEntries : List (String × PyVal) → List String
  | [] => []
  | (k, v) :: es =>
    (pyReprStr k ++ ": " ++ (match v with | .str s => pyReprStr s | w => pyToStr w))
      :: pyToStrEntries es
end

/-- Python `','.join(v)`: joins an iterable of strings; TypeError when an
element is not a string or the value is not iterable.  Iterating a string
yields its characters, iterating a dict yields its keys. -/
def pyJoin (v : PyVal) : Except PyExc String :=
  match v with
  | .list xs =>
    match xs.mapM (fun x => match x with | .str s => Except.ok s | _ => Except.error PyExc.typeError) with
    | .ok ss => .ok (String.intercalate "," ss)
    | .error e => .error e
  | .str s => .ok (String.intercalate "," (s.data.map (fun c => String.mk [c])))
  | .dict es => .ok (String.intercalate "," (es.map (fun e => e.1)))
  | _ => .error .typeError

/-- The six package-source section names, in the fixed order the script
iterates them. -/
def sources : List String := ["npm", "pypi", "debian", "rpm", "containers", "vscode"]

/-- Bind on `Except` with an `ok` value: reduction lemma for the do-blocks. -/
@[simp] theorem ok_bind {ε α β : Type} (a : α) (f : α → Except ε β) :
    (Except.ok a >>= f) = f a := rfl

@[simp] theorem error_bind {ε α β : Type} (e : ε) (f : α → Except ε β) :
    ((Except.error e : Except ε α) >>= f) = Except.error e := rfl

@[simp] theorem pure_eq_ok {ε α : Type} (a : α) :
    (pure a : Except ε α) = Except.ok a := rfl

/-- One iteration of the `enabled_sources` loop of `validate_config`
(line 39: `source in config and config[source].get('enabled', False)`). -/
def enabledFlag (config : PyVal) (s : String) : Except PyExc Bool := do
  let c ← pyContains config s
  if c then
    let v ← pySubscript config s
    let en ← pyGet v "enabled" (.bool false)
    pure (truthy en)
  else
    pure false

/-- The message of the per-source list check (lines 48/53/58/63/68/73). -/
def mkMsg (s field : String) : String :=
  s ++ " is enabled but no " ++ field ++ " specified"

/-- One per-source block of `validate_config` (e.g. lines 46-48 for npm):
`if config.get(s, {}).get('enabled'): if field not in config[s] or not
config[s][field]: errors.append(msg)`.  Returns the (possibly empty) list of
messages this block appends. -/
def sourceCheckErr (config : PyVal) (s field : String) : Except PyExc (List String) := do
  let sec ← pyGet config s (.dict [])
  let en ← pyGet sec "enabled" .none
  if truthy en then
    let sec1 ← pySubscript config s
    let c ← pyContains sec1 field
    if c then
      let sec2 ← pySubscript config s
      let p ← pySubscript sec2 field
      if truthy p then pure [] else pure [mkMsg s field]
    else
      pure [mkMsg s field]
  else
    pure []

/-- Lines 28-73 of `validate_config`: the accumulated `errors` list (or the
Python exception the function dies with). -/
def validate_errors (config : PyVal) : Except PyExc (List String) := do
  let hasMeta ← pyContains config "metadata"
  let e1 := if hasMeta then ([] : List String) else ["Missing \x27metadata\x27 section"]
  let f1 ← enabledFlag config "npm"
  let f2 ← enabledFlag config "pypi"
  let f3 ← enabledFlag config "debian"
  let f4 ← enabledFlag config "rpm"
  let f5 ← enabledFlag config "containers"
  let f6 ← enabledFlag config "vscode"
  let enabledSources :=
    (if f1 then ["npm"] else []) ++ (if f2 then ["pypi"] else []) ++
    (if f3 then ["debian"] else []) ++ (if f4 then ["rpm"] else []) ++
    (if f5 then ["containers"] else []) ++ (if f6 then ["vscode"] else [])
  let e2 := if enabledSources.isEmpty then ["No package sources are enabled"] else []
  let c1 ← sourceCheckErr config "npm" "packages"
  let c2 ← sourceCheckErr config "pypi" "packages"
  let c3 ← sourceCheckErr config "debian" "packages"
  let c4 ← sourceCheckErr config "rpm" "packages"
  let c5 ← sourceCheckErr config "containers" "images"
  let c6 ← sourceCheckErr config "vscode" "extensions"
  pure (e1 ++ e2 ++ c1 ++ c2 ++ c3 ++ c4 ++ c5 ++ c6)

/-- Outcome of `validate_config`: return `True`, or print the report to
stderr and `sys.exit(1)`. -/
inductive VerdictT where
  | valid
  | invalid (stderrLines : List String)
deriving DecidableEq

/-- `validate_config` (lines 28-81): either returns `True` (`valid`), exits
with the printed violation report (`invalid`), or raises. -/
def validate_config (config : PyVal) : Except PyExc VerdictT := do
  let errors ← validate_errors config
  if errors.isEmpty then
    pure .valid
  else
    pure (.invalid ("Configuration validation errors:" :: errors.map (fun e => "  - " ++ e)))

/-! ### Total (precondition-guarded) descriptions of the validator -/

/-- Dict field lookup on a `PyVal`, `Option.none` off dicts. -/
def dget (c : PyVal) (k : String) : Option PyVal :=
  match c with
  | .dict es => pyLookup es k
  | _ => Option.none

/-- Is the document a mapping whose present source sections are mappings?
Exactly when this holds, every dynamic access of `validate_config`
succeeds. -/
def sectionsOk (c : PyVal) : Bool :=
  (match c with | .dict _ => true | _ => false) &&
  sources.all (fun s =>
    match dget c s with
    | some v => (match v with | .dict _ => true | _ => false)
    | Option.none => true)

/-- Does the document have a `metadata` key (total description, assumes the
document is a dict). -/
def hasMetadataB (c : PyVal) : Bool := (dget c "metadata").isSome

/-- Is source section `s` enabled in the code's sense: present, and its
`enabled` field (default `False`) truthy. -/
def sectionEnabled (c : PyVal) (s : String) : Bool :=
  match dget c s with
  | some (.dict fs) => truthy ((pyLookup fs "enabled").getD (.bool false))
  | _ => false

/-- The value of field `f` of source section `s`. -/
def fieldVal (c : PyVal) (s f : String) : Option PyVal :=
  match dget c s with
  | some (.dict fs) => pyLookup fs f
  | _ => Option.none

/-- Field `f` of section `s` is present with a truthy value. -/
def fieldTruthy (c : PyVal) (s f : String) : Bool :=
  match fieldVal c s f with
  | some v => truthy v
  | Option.none => false

/-- The required-list field of each source. -/
def fieldOf (s : String) : String :=
  if s = "containers" then "images" else if s = "vscode" then "extensions" else "packages"

/-- Section `s` is enabled but its required list field is absent or falsy. -/
def sourceViolated (c : PyVal) (s : String) : Bool :=
  sectionEnabled c s && !(fieldTruthy c s (fieldOf s))

/-- The message of source `s`'s list check. -/
def listMsg (s : String) : String := mkMsg s (fieldOf s)

/-- One item of the validator's fixed checklist: its message and the
condition under which it is violated. -/
structure CheckItem where
  msg : String
  bad : PyVal → Bool

/-- The fixed checklist of `validate_config`, in report order. -/
def checkItems : List CheckItem :=
  ⟨"Missing \x27metadata\x27 section", fun c => !(hasMetadataB c)⟩ ::
  ⟨"No package sources are enabled", fun c => !(sources.any (sectionEnabled c))⟩ ::
  sources.map (fun s => ⟨listMsg s, fun c => sourceViolated c s⟩)

/-- Concatenate the messages of the violated items, in checklist order. -/
def catIf : List CheckItem → PyVal → List String
  | [], _ => []
  | i :: is, c => (if i.bad c then [i.msg] else []) ++ catIf is c

/-- The complete violation report of a document (in checklist order). -/
def violationList (c : PyVal) : List String := catIf checkItems c

/-! ### The validator under its precondition -/

theorem sectionsOk_dict {c : PyVal} (h : sectionsOk c = true) :
    ∃ es, c = .dict es := by
  cases c with
  | dict es => exact ⟨es, rfl⟩
  | none => simp [sectionsOk] at h
  | bool b => simp [sectionsOk] at h
  | int n => simp [sectionsOk] at h
  | str s => simp [sectionsOk] at h
  | list xs => simp [sectionsOk] at h

theorem sectionsOk_section {es : List (String × PyVal)}
    (h : sectionsOk (.dict es) = true) {s : String} (hs : s ∈ sources)
    {v : PyVal} (hv : pyLookup es s = some v) : ∃ fs, v = .dict fs := by
  unfold sectionsOk at h
  rw [Bool.and_eq_true, List.all_eq_true] at h
  have hx := h.2 s hs
  rw [show dget (.dict es) s = some v from hv] at hx
  cases v with
  | dict fs => exact ⟨fs, rfl⟩
  | none => simp at hx
  | bool b => simp at hx
  | int n => simp at hx
  | str s' => simp at hx
  | list xs => simp at hx

theorem enabledFlag_ok {es : List (String × PyVal)}
    (h : sectionsOk (.dict es) = true) {s : String} (hs : s ∈ sources) :
    enabledFlag (.dict es) s = .ok (sectionEnabled (.dict es) s) := by
  unfold enabledFlag
  cases hlk : pyLookup es s with
  | none => simp [pyContains, hlk, sectionEnabled, dget]
  | some v =>
    obtain ⟨fs, rfl⟩ := sectionsOk_section h hs hlk
    simp [pyContains, hlk, pySubscript, pyGet, sectionEnabled, dget]

theorem getD_none_bool_false (o : Option PyVal) :
    truthy (o.getD .none) = truthy (o.getD (.bool false)) := by
  cases o <;> rfl

theorem sourceCheckErr_ok {es : List (String × PyVal)}
    (h : sectionsOk (.dict es) = true) {s : String} (hs : s ∈ sources) (f : String) :
    sourceCheckErr (.dict es) s f =
      .ok (if sectionEnabled (.dict es) s && !(fieldTruthy (.dict es) s f)
           then [mkMsg s f] else []) := by
  unfold sourceCheckErr
  cases hlk : pyLookup es s with
  | none =>
    simp [pyGet, hlk, sectionEnabled, dget, truthy, pyLookup]
  | some v =>
    obtain ⟨fs, rfl⟩ := sectionsOk_section h hs hlk
    rw [show pyGet (.dict es) s (.dict []) = .ok (.dict fs) by simp [pyGet, hlk]]
    rw [ok_bind]
    rw [show pyGet (.dict fs) "enabled" .none = .ok ((pyLookup fs "enabled").getD .none) from rfl]
    rw [ok_bind]
    rw [getD_none_bool_false]
    have hse : sectionEnabled (.dict es) s = truthy ((pyLookup fs "enabled").getD (.bool false)) := by
      simp [sectionEnabled, dget, hlk]
    rw [← hse]
    cases hen : sectionEnabled (.dict es) s with
    | false => simp
    | true =>
      simp only [if_true, Bool.true_and]
      rw [show pySubscript (.dict es) s = .ok (.dict fs) by simp [pySubscript, hlk]]
      rw [ok_bind]
      rw [show pyContains (.dict fs) f = .ok (pyLookup fs f).isSome from rfl]
      rw [ok_bind]
      cases hf : pyLookup fs f with
      | none =>
        simp [fieldTruthy, fieldVal, dget, hlk, hf]
      | some p =>
        simp only [Option.isSome_some, if_true]
        rw [ok_bind]
        rw [show pySubscript (.dict fs) f = .ok p by simp [pySubscript, hf]]
        rw [ok_bind]
        have hft : fieldTruthy (.dict es) s f = truthy p := by
          simp [fieldTruthy, fieldVal, dget, hlk, hf]
        rw [hft]
        cases truthy p <;> simp

theorem flip_if (b : Bool) (x : List String) :
    (if b then ([] : List String) else x) = (if !b then x else []) := by
  cases b <;> rfl

theorem isEmpty_flags (b1 b2 b3 b4 b5 b6 : Bool) :
    ((if b1 then ["npm"] else []) ++ (if b2 then ["pypi"] else []) ++
     (if b3 then ["debian"] else []) ++ (if b4 then ["rpm"] else []) ++
     (if b5 then ["containers"] else []) ++ (if b6 then ["vscode"] else [])).isEmpty
    = !(b1 || (b2 || (b3 || (b4 || (b5 || (b6 || false)))))) := by
  cases b1 <;> cases b2 <;> cases b3 <;> cases b4 <;> cases b5 <;> cases b6 <;> rfl

/-- Main lemma: under the precondition, `validate_config`'s error list is the
concatenation of the violated checklist items' messages, in checklist
order. -/
theorem validate_errors_eq {c : PyVal} (h : sectionsOk c = true) :
    validate_errors c = .ok (violationList c) := by
  obtain ⟨es, rfl⟩ := sectionsOk_dict h
  unfold validate_errors
  rw [show pyContains (.dict es) "metadata" = .ok (pyLookup es "metadata").isSome from rfl]
  rw [ok_bind]
  rw [enabledFlag_ok h (show "npm" ∈ sources by decide), ok_bind]
  rw [enabledFlag_ok h (show "pypi" ∈ sources by decide), ok_bind]
  rw [enabledFlag_ok h (show "debian" ∈ sources by decide), ok_bind]
  rw [enabledFlag_ok h (show "rpm" ∈ sources by decide), ok_bind]
  rw [enabledFlag_ok h (show "containers" ∈ sources by decide), ok_bind]
  rw [enabledFlag_ok h (show "vscode" ∈ sources by decide), ok_bind]
  rw [sourceCheckErr_ok h (show "npm" ∈ sources by decide) "packages", ok_bind]
  rw [sourceCheckErr_ok h (show "pypi" ∈ sources by decide) "packages", ok_bind]
  rw [sourceCheckErr_ok h (show "debian" ∈ sources by decide) "packages", ok_bind]
  rw [sourceCheckErr_ok h (show "rpm" ∈ sources by decide) "packages", ok_bind]
  rw [sourceCheckErr_ok h (show "containers" ∈ sources by decide) "images", ok_bind]
  rw [sourceCheckErr_ok h (show "vscode" ∈ sources by decide) "extensions", ok_bind]
  rw [isEmpty_flags]
  rw [pure_eq_ok]
  congr 1
  rw [flip_if]
  unfold violationList checkItems
  simp only [catIf, sources, List.map_cons, List.map_nil, List.append_nil,
    List.append_assoc, sourceViolated, listMsg,
    show hasMetadataB (PyVal.dict es) = (pyLookup es "metadata").isSome from rfl,
    List.any_cons, List.any_nil,
    show fieldOf "npm" = "packages" from rfl, show fieldOf "pypi" = "packages" from rfl,
    show fieldOf "debian" = "packages" from rfl, show fieldOf "rpm" = "packages" from rfl,
    show fieldOf "containers" = "images" from rfl,
    show fieldOf "vscode" = "extensions" from rfl]

/-! ### Exception behaviour of the validator (precondition analysis) -/

/-- Did an `Except` computation complete without a Python exception? -/
def exceptOk {ε α : Type} : Except ε α → Bool
  | .ok _ => true
  | .error _ => false

@[simp] theorem ite_bind {ε α β : Type} (b : Prop) [Decidable b]
    (x y : Except ε α) (f : α → Except ε β) :
    ((if b then x else y) >>= f) = if b then x >>= f else y >>= f := by
  split <;> rfl

@[simp] theorem exceptOk_ite {ε α : Type} (b : Prop) [Decidable b] (x y : Except ε α) :
    exceptOk (if b then x else y) = if b then exceptOk x else exceptOk y := by
  split <;> rfl

@[simp] theorem exceptOk_error {ε α : Type} (e : ε) :
    exceptOk (Except.error e : Except ε α) = false := rfl

@[simp] theorem exceptOk_ok {ε α : Type} (a : α) :
    exceptOk (Except.ok a : Except ε α) = true := rfl

theorem enabledFlag_str (s src : String) :
    enabledFlag (.str s) src =
      (if subCheck src.data s.data then .error .typeError else .ok false) := by
  unfold enabledFlag
  rw [show pyContains (.str s) src = .ok (subCheck src.data s.data) from rfl, ok_bind]
  cases h : subCheck src.data s.data <;> simp [h, pySubscript]

theorem enabledFlag_list (xs : List PyVal) (src : String) :
    enabledFlag (.list xs) src =
      (if (xs.any (fun x => match x with | .str s => s = src | _ => false))
       then .error .typeError else .ok false) := by
  unfold enabledFlag
  rw [show pyContains (.list xs) src
      = .ok (xs.any (fun x => match x with | .str s => s = src | _ => false)) from rfl, ok_bind]
  cases h : (xs.any (fun x => match x with | .str s => s = src | _ => false)) <;>
    simp [h, pySubscript]

theorem validate_errors_str (s : String) :
    exceptOk (validate_errors (.str s)) = false := by
  unfold validate_errors
  rw [show pyContains (.str s) "metadata" = .ok (subCheck "metadata".data s.data) from rfl]
  simp [enabledFlag_str, sourceCheckErr, pyGet]

theorem validate_errors_list (xs : List PyVal) :
    exceptOk (validate_errors (.list xs)) = false := by
  unfold validate_errors
  rw [show pyContains (.list xs) "metadata"
      = .ok (xs.any (fun x => match x with | .str s => s = "metadata" | _ => false)) from rfl]
  simp [enabledFlag_list, sourceCheckErr, pyGet]

theorem secOk_of_flag_ok {es : List (String × PyVal)} {s : String} {b : Bool}
    (h : enabledFlag (.dict es) s = .ok b) :
    (match pyLookup es s with
     | some v => (match v with | PyVal.dict _ => true | _ => false)
     | Option.none => true) = true := by
  unfold enabledFlag at h
  rw [show pyContains (.dict es) s = .ok (pyLookup es s).isSome from rfl, ok_bind] at h
  cases hlk : pyLookup es s with
  | none => simp
  | some v =>
    rw [hlk] at h
    simp only [Option.isSome_some, if_true] at h
    cases v <;> simp [pySubscript, hlk, pyGet] at h ⊢

theorem sectionsOk_of_flags_ok {es : List (String × PyVal)}
    {b1 b2 b3 b4 b5 b6 : Bool}
    (h1 : enabledFlag (.dict es) "npm" = .ok b1)
    (h2 : enabledFlag (.dict es) "pypi" = .ok b2)
    (h3 : enabledFlag (.dict es) "debian" = .ok b3)
    (h4 : enabledFlag (.dict es) "rpm" = .ok b4)
    (h5 : enabledFlag (.dict es) "containers" = .ok b5)
    (h6 : enabledFlag (.dict es) "vscode" = .ok b6) :
    sectionsOk (.dict es) = true := by
  unfold sectionsOk
  simp only [sources, List.all_cons, List.all_nil, Bool.and_true, Bool.true_and]
  simp only [dget]
  rw [secOk_of_flag_ok h1, secOk_of_flag_ok h2, secOk_of_flag_ok h3,
    secOk_of_flag_ok h4, secOk_of_flag_ok h5, secOk_of_flag_ok h6]
  rfl

theorem sectionsOk_false_of_flag_err {es : List (String × PyVal)} {s : String}
    (hs : s ∈ sources) {e : PyExc} (h : enabledFlag (.dict es) s = .error e) :
    sectionsOk (.dict es) = false := by
  cases hok : sectionsOk (.dict es) with
  | false => rfl
  | true =>
    rw [enabledFlag_ok hok hs] at h
    cases h

/-- `validate_config` completes without a Python exception exactly when the
document is a mapping whose present source sections are mappings. -/
theorem validate_errors_ok_iff_sectionsOk (config : PyVal) :
    exceptOk (validate_errors config) = sectionsOk config := by
  cases config with
  | none => rfl
  | bool b => rfl
  | int n => rfl
  | str s => rw [validate_errors_str, show sectionsOk (.str s) = false from rfl]
  | list xs => rw [validate_errors_list, show sectionsOk (.list xs) = false from rfl]
  | dict es =>
    cases h1 : enabledFlag (.dict es) "npm" with
    | error e =>
      rw [sectionsOk_false_of_flag_err (by decide) h1]
      unfold validate_errors
      rw [show pyContains (.dict es) "metadata" = .ok (pyLookup es "metadata").isSome from rfl,
        ok_bind, h1, error_bind]
      rfl
    | ok b1 =>
    cases h2 : enabledFlag (.dict es) "pypi" with
    | error e =>
      rw [sectionsOk_false_of_flag_err (by decide) h2]
      unfold validate_errors
      rw [show pyContains (.dict es) "metadata" = .ok (pyLookup es "metadata").isSome from rfl,
        ok_bind, h1, ok_bind, h2, error_bind]
      rfl
    | ok b2 =>
    cases h3 : enabledFlag (.dict es) "debian" with
    | error e =>
      rw [sectionsOk_false_of_flag_err (by decide) h3]
      unfold validate_errors
      rw [show pyContains (.dict es) "metadata" = .ok (pyLookup es "metadata").isSome from rfl,
        ok_bind, h1, ok_bind, h2, ok_bind, h3, error_bind]
      rfl
    | ok b3 =>
    cases h4 : enabledFlag (.dict es) "rpm" with
    | error e =>
      rw [sectionsOk_false_of_flag_err (by decide) h4]
      unfold validate_errors
      rw [show pyContains (.dict es) "metadata" = .ok (pyLookup es "metadata").isSome from rfl,
        ok_bind, h1, ok_bind, h2, ok_bind, h3, ok_bind, h4, error_bind]
      rfl
    | ok b4 =>
    cases h5 : enabledFlag (.dict es) "containers" with
    | error e =>
      rw [sectionsOk_false_of_flag_err (by decide) h5]
      unfold validate_errors
      rw [show pyContains (.dict es) "metadata" = .ok (pyLookup es "metadata").isSome from rfl,
        ok_bind, h1, ok_bind, h2, ok_bind, h3, ok_bind, h4, ok_bind, h5, error_bind]
      rfl
    | ok b5 =>
    cases h6 : enabledFlag (.dict es) "vscode" with
    | error e =>
      rw [sectionsOk_false_of_flag_err (by decide) h6]
      unfold validate_errors
      rw [show pyContains (.dict es) "metadata" = .ok (pyLookup es "metadata").isSome from rfl,
        ok_bind, h1, ok_bind, h2, ok_bind, h3, ok_bind, h4, ok_bind, h5, ok_bind, h6, error_bind]
      rfl
    | ok b6 =>
      have hP := sectionsOk_of_flags_ok h1 h2 h3 h4 h5 h6
      rw [hP, validate_errors_eq hP]
      rfl

/-! ### Counting messages in the violation report -/

theorem not_mem_catIf {m : String} {l : List CheckItem} {c : PyVal}
    (h : m ∉ l.map CheckItem.msg) : m ∉ catIf l c := by
  induction l with
  | nil => simp [catIf]
  | cons j t ih =>
    simp only [List.map_cons, List.mem_cons, not_or] at h
    intro hmem
    unfold catIf at hmem
    rcases List.mem_append.mp hmem with h1 | h2
    · rcases Decidable.em (j.bad c = true) with hb | hb
      · rw [if_pos hb] at h1
        exact h.1 (List.mem_singleton.mp h1)
      · rw [if_neg hb] at h1
        cases h1
    · exact ih h.2 h2

theorem mem_catIf_iff {l : List CheckItem} (hnd : (l.map CheckItem.msg).Nodup)
    {i : CheckItem} (hi : i ∈ l) (c : PyVal) :
    (i.msg ∈ catIf l c ↔ i.bad c = true) := by
  induction l with
  | nil => cases hi
  | cons j t ih =>
    simp only [List.map_cons, List.nodup_cons] at hnd
    unfold catIf
    rcases List.mem_cons.mp hi with rfl | hit
    · have hnot : i.msg ∉ catIf t c :=
        not_mem_catIf hnd.1
      constructor
      · intro hm
        rcases List.mem_append.mp hm with h1 | h2
        · rcases Decidable.em (i.bad c = true) with hb | hb
          · exact hb
          · rw [if_neg hb] at h1; cases h1
        · exact absurd h2 hnot
      · intro hb
        exact List.mem_append.mpr (Or.inl (by rw [if_pos hb]; exact List.mem_singleton.mpr rfl))
    · have hne : i.msg ≠ j.msg := by
        intro he
        exact hnd.1 (he ▸ List.mem_map_of_mem CheckItem.msg hit)
      rw [← ih hnd.2 hit]
      constructor
      · intro hm
        rcases List.mem_append.mp hm with h1 | h2
        · rcases Decidable.em (j.bad c = true) with hb | hb
          · rw [if_pos hb] at h1
            exact absurd (List.mem_singleton.mp h1) hne
          · rw [if_neg hb] at h1; cases h1
        · exact h2
      · intro hm
        exact List.mem_append.mpr (Or.inr hm)

theorem count_catIf {l : List CheckItem} (hnd : (l.map CheckItem.msg).Nodup)
    {i : CheckItem} (hi : i ∈ l) (c : PyVal) :
    (catIf l c).count i.msg = if i.bad c then 1 else 0 := by
  induction l with
  | nil => cases hi
  | cons j t ih =>
    simp only [List.map_cons, List.nodup_cons] at hnd
    unfold catIf
    rw [List.count_append]
    rcases List.mem_cons.mp hi with rfl | hit
    · have hnot : i.msg ∉ catIf t c := not_mem_catIf hnd.1
      rw [List.count_eq_zero.mpr hnot]
      rcases Decidable.em (i.bad c = true) with hb | hb
      · rw [if_pos hb, if_pos hb]
        simp
      · rw [if_neg hb, if_neg hb]
        simp
    · have hne : i.msg ≠ j.msg := by
        intro he
        exact hnd.1 (he ▸ List.mem_map_of_mem CheckItem.msg hit)
      have h0 : (if j.bad c then [j.msg] else []).count i.msg = 0 := by
        rcases Decidable.em (j.bad c = true) with hb | hb
        · rw [if_pos hb]
          simp [List.count_singleton, hne]
        · rw [if_neg hb]
          rfl
      rw [h0, ih hnd.2 hit]
      omega

/-! ### Claim C1 -/

/-- C1: For every parsed configuration document satisfying the validator's
precondition, validation is not fail-fast: `validate_config` evaluates every
item of the fixed checklist and its report (printed to stderr before
`sys.exit(1)`) contains exactly one distinct message for every violated item
(count 1) and none for a satisfied item (count 0), in checklist order. -/
theorem validate_reports_every_violation (config : PyVal)
    (hP : sectionsOk config = true) :
    validate_errors config = .ok (violationList config) ∧
    validate_config config =
      .ok (if (violationList config).isEmpty then .valid
           else .invalid ("Configuration validation errors:"
                          :: (violationList config).map (fun e => "  - " ++ e))) ∧
    ∀ i ∈ checkItems,
      (violationList config).count i.msg = if i.bad config then 1 else 0 := by
  refine ⟨validate_errors_eq hP, ?_, ?_⟩
  · unfold validate_config
    rw [validate_errors_eq hP, ok_bind]
    cases h : (violationList config).isEmpty <;> simp [h]
  · intro i hi
    exact count_catIf (by decide) hi config

/-- Witness for C1 at the empty document: both the metadata item and the
no-enabled-sources item are violated and reported. -/
theorem validate_reports_every_violation_witness :
    sectionsOk (PyVal.dict []) = true ∧
    validate_errors (PyVal.dict []) = .ok (violationList (PyVal.dict [])) ∧
    (violationList (PyVal.dict [])).count "Missing \x27metadata\x27 section" = 1 ∧
    (violationList (PyVal.dict [])).count "No package sources are enabled" = 1 := by
  have h := validate_reports_every_violation (PyVal.dict []) rfl
  refine ⟨rfl, h.1, ?_, ?_⟩
  · have hc := h.2.2 _ (List.mem_cons_self _ _)
    simpa using hc
  · have hc := h.2.2 _ (List.mem_cons_of_mem _ (List.mem_cons_self _ _))
    simpa using hc

/-! ### Claim C9 -/

/-- C9: `validate_config` completes normally (returns valid, or reports and
exits) exactly when the loaded document is a mapping and every present
source-section value is a mapping; outside this precondition it raises an
uncaught Python exception. -/
theorem validate_config_normal_iff_precondition (config : PyVal) :
    exceptOk (validate_config config) = sectionsOk config := by
  rw [← validate_errors_ok_iff_sectionsOk]
  unfold validate_config
  cases h : validate_errors config with
  | error e => simp
  | ok errs => cases herrs : errs.isEmpty <;> simp [herrs]

/-! ### Claim C2 -/

/-- C2 (amended): under the precondition, the no-enabled-sources message is
reported iff no source section is enabled in the code's sense (present with
a truthy `enabled` field). -/
theorem no_enabled_message_iff (config : PyVal) (hP : sectionsOk config = true)
    (errs : List String) (he : validate_errors config = .ok errs) :
    ("No package sources are enabled" ∈ errs ↔
     sources.any (sectionEnabled config) = false) := by
  rw [validate_errors_eq hP] at he
  have herrs : violationList config = errs := by
    injection he
  subst herrs
  have hm := mem_catIf_iff (l := checkItems) (by decide)
    (i := ⟨"No package sources are enabled", fun c => !(sources.any (sectionEnabled c))⟩)
    (List.mem_cons_of_mem _ (List.mem_cons_self _ _)) config
  rw [show violationList config = catIf checkItems config from rfl]
  rw [hm]
  simp

/-- The C2 counterexample document: npm's `enabled` is the (truthy) string
`"yes"`, not the boolean `true`. -/
def cC2 : PyVal :=
  .dict [("metadata", .dict []),
         ("npm", .dict [("enabled", .str "yes"), ("packages", .list [.str "a"])])]

/-- Does section `s` have `enabled` equal to the boolean `true` (the claim's
reading of "enabled")? -/
def enabledEqTrueB (c : PyVal) (s : String) : Bool :=
  match fieldVal c s "enabled" with
  | some (PyVal.bool true) => true
  | _ => false

/-- C2 counterexample: in `cC2` no source section has `enabled = true` as a
boolean, yet validation reports nothing at all — refuting the claimed
"reports the violation iff no section has `enabled = true`". -/
theorem no_enabled_claim_counterexample :
    validate_errors cC2 = .ok [] ∧
    sources.all (fun s => !(enabledEqTrueB cC2 s)) = true := by
  constructor
  · rfl
  · rfl

/-- Witness for (amended) C2 on a document with a truthy-enabled source:
the message is absent. -/
theorem no_enabled_message_iff_witness :
    sectionsOk cC2 = true ∧ validate_errors cC2 = .ok [] ∧
    ("No package sources are enabled" ∉ ([] : List String)) := by
  refine ⟨rfl, rfl, ?_⟩
  intro hmem
  have h := (no_enabled_message_iff cC2 rfl [] rfl).mp hmem
  rw [show sources.any (sectionEnabled cC2) = true from rfl] at h
  cases h

/-! ### Claim C3 -/

/-- C3 (amended): under the precondition, for each source, the per-source
message is reported iff the section is enabled (truthy `enabled`) and its
required list field (`packages`/`images`/`extensions`) is absent or falsy;
a present truthy value of any type (e.g. a non-empty string) passes. -/
theorem source_list_message_iff (config : PyVal) (hP : sectionsOk config = true)
    (errs : List String) (he : validate_errors config = .ok errs) :
    ∀ s ∈ sources,
      (listMsg s ∈ errs ↔
       (sectionEnabled config s = true ∧ fieldTruthy config s (fieldOf s) = false)) := by
  rw [validate_errors_eq hP] at he
  have herrs : violationList config = errs := by
    injection he
  subst herrs
  intro s hs
  have hmem : (⟨listMsg s, fun c => sourceViolated c s⟩ : CheckItem) ∈ checkItems := by
    unfold checkItems
    have hmap := List.mem_map_of_mem
      (fun t : String => ({ msg := listMsg t, bad := fun c => sourceViolated c t } : CheckItem)) hs
    exact List.mem_cons_of_mem _ (List.mem_cons_of_mem _ hmap)
  have hm := mem_catIf_iff (l := checkItems) (by decide) hmem config
  have hm' : (listMsg s ∈ catIf checkItems config) ↔
      (sectionEnabled config s && !(fieldTruthy config s (fieldOf s))) = true := hm
  rw [show violationList config = catIf checkItems config from rfl, hm']
  simp

/-- The C3 counterexample document: npm is enabled and `packages` is the
non-empty *string* `"abc"`, not a list. -/
def cC3 : PyVal :=
  .dict [("metadata", .dict []),
         ("npm", .dict [("enabled", .bool true), ("packages", .str "abc")])]

/-- C3 counterexample: npm is enabled, `packages` exists but is not a list,
yet the npm check passes (no message is reported) — refuting "succeeds iff a
`packages` field exists and is a non-empty list". -/
theorem npm_list_claim_counterexample :
    validate_errors cC3 = .ok [] ∧
    sectionEnabled cC3 "npm" = true ∧
    (fieldVal cC3 "npm" "packages").isSome = true ∧
    (match fieldVal cC3 "npm" "packages" with
     | some (PyVal.list _) => true
     | _ => false) = false := by
  exact ⟨rfl, rfl, rfl, rfl⟩

/-- Witness for (amended) C3: pypi enabled with no `packages` key yields
exactly the claimed message. -/
def cC3w : PyVal :=
  .dict [("metadata", .dict []), ("pypi", .dict [("enabled", .bool true)])]

theorem source_list_message_iff_witness :
    sectionsOk cC3w = true ∧
    validate_errors cC3w = .ok ["pypi is enabled but no packages specified"] ∧
    ("pypi is enabled but no packages specified" ∈
      ["pypi is enabled but no packages specified"]) := by
  refine ⟨rfl, rfl, ?_⟩
  exact (source_list_message_iff cC3w rfl
    ["pypi is enabled but no packages specified"] rfl "pypi" (by decide)).mpr ⟨rfl, rfl⟩

/-! ### The environment-variable projection (`export_env_vars`, lines 96-160) -/

/-- Python `str.lower()`, restricted to ASCII case-mapping (all strings the
script lowercases are `str(bool)` results or ASCII config values). -/
def asciiLower (s : String) : String := String.mk (s.data.map Char.toLower)

/-- Lines 101-103: the metadata block of `export_env_vars`. -/
def metaLines (config : PyVal) : Except PyExc (List String) := do
  let c ← pyContains config "metadata"
  if c then
    let md ← pySubscript config "metadata"
    let n ← pyGet md "environment_name" (.str "default")
    let d ← pyGet md "description" (.str "")
    pure ["export ENV_NAME=\x27" ++ pyToStr n ++ "\x27",
          "export ENV_DESC=\x27" ++ pyToStr d ++ "\x27"]
  else
    pure []

/-- One iteration of the enablement loop (lines 106-108):
`export <SOURCE>_ENABLED=str(config.get(s, {}).get('enabled', False)).lower()`.
`up` is `s.upper()`, precomputed since the loop runs over a fixed literal
list of source names. -/
def enabledLine (config : PyVal) (s up : String) : Except PyExc String := do
  let sec ← pyGet config s (.dict [])
  let en ← pyGet sec "enabled" (.bool false)
  pure ("export " ++ up ++ "_ENABLED=" ++ asciiLower (pyToStr en))

/-- The six enablement lines, in the loop's fixed order. -/
def enabledLines (config : PyVal) : Except PyExc (List String) := do
  let a ← enabledLine config "npm" "NPM"
  let b ← enabledLine config "pypi" "PYPI"
  let c ← enabledLine config "debian" "DEBIAN"
  let d ← enabledLine config "rpm" "RPM"
  let e ← enabledLine config "containers" "CONTAINERS"
  let f ← enabledLine config "vscode" "VSCODE"
  pure [a, b, c, d, e, f]

/-- Lines 111-113: the npm block. -/
def npmLines (config : PyVal) : Except PyExc (List String) := do
  let sec ← pyGet config "npm" (.dict [])
  let en ← pyGet sec "enabled" .none
  if truthy en then
    let nc ← pySubscript config "npm"
    let inc ← pyGet nc "include_dependencies" (.bool true)
    pure ["export NPM_INCLUDE_DEPS=" ++ asciiLower (pyToStr inc)]
  else
    pure []

/-- Lines 116-122: the pypi block. -/
def pypiLines (config : PyVal) : Except PyExc (List String) := do
  let sec ← pyGet config "pypi" (.dict [])
  let en ← pyGet sec "enabled" .none
  if truthy en then
    let pc ← pySubscript config "pypi"
    let inc ← pyGet pc "include_dependencies" (.bool true)
    let base := ["export PYPI_INCLUDE_DEPS=" ++ asciiLower (pyToStr inc)]
    let hasPv ← pyContains pc "python_versions"
    let l2 ← if hasPv then do
        let v ← pySubscript pc "python_versions"
        let j ← pyJoin v
        pure ["export PYPI_PYTHON_VERSIONS=\x27" ++ j ++ "\x27"]
      else pure []
    let hasPl ← pyContains pc "platforms"
    let l3 ← if hasPl then do
        let v ← pySubscript pc "platforms"
        let j ← pyJoin v
        pure ["export PYPI_PLATFORMS=\x27" ++ j ++ "\x27"]
      else pure []
    pure (base ++ l2 ++ l3)
  else
    pure []

/-- Lines 125-131 (debian, varPrefix "DEBIAN", defaults "ubuntu"/"22.04") and
lines 134-140 (rpm, varPrefix "RPM", defaults "rhel"/"9"): the two
structurally identical distro blocks. -/
def distroLines (config : PyVal) (name varPrefix distDefault relDefault : String) :
    Except PyExc (List String) := do
  let sec ← pyGet config name (.dict [])
  let en ← pyGet sec "enabled" .none
  if truthy en then
    let dc ← pySubscript config name
    let dist ← pyGet dc "distribution" (.str distDefault)
    let rel ← pyGet dc "release" (.str relDefault)
    let inc ← pyGet dc "include_dependencies" (.bool true)
    let base := ["export " ++ varPrefix ++ "_DISTRIBUTION=\x27" ++ pyToStr dist ++ "\x27",
                 "export " ++ varPrefix ++ "_RELEASE=\x27" ++ pyToStr rel ++ "\x27",
                 "export " ++ varPrefix ++ "_INCLUDE_DEPS=" ++ asciiLower (pyToStr inc)]
    let hasAr ← pyContains dc "architectures"
    let l2 ← if hasAr then do
        let a ← pySubscript dc "architectures"
        let j ← pyJoin a
        pure ["export " ++ varPrefix ++ "_ARCHITECTURES=\x27" ++ j ++ "\x27"]
      else pure []
    pure (base ++ l2)
  else
    pure []

/-- Lines 143-145: the containers block. -/
def containersLines (config : PyVal) : Except PyExc (List String) := do
  let sec ← pyGet config "containers" (.dict [])
  let en ← pyGet sec "enabled" .none
  if truthy en then
    let cc ← pySubscript config "containers"
    let fmt ← pyGet cc "export_format" (.str "docker-archive")
    pure ["export CONTAINERS_EXPORT_FORMAT=\x27" ++ pyToStr fmt ++ "\x27"]
  else
    pure []

/-- Lines 148-152: the output block. -/
def outputLines (config : PyVal) : Except PyExc (List String) := do
  let c ← pyContains config "output"
  if c then
    let oc ← pySubscript config "output"
    let tn ← pyGet oc "tarball_name" (.str "resources-bundle")
    let cp ← pyGet oc "compression" (.str "gzip")
    let ss ← pyGet oc "split_size" (.str "0")
    pure ["export OUTPUT_TARBALL_NAME=\x27" ++ pyToStr tn ++ "\x27",
          "export OUTPUT_COMPRESSION=\x27" ++ pyToStr cp ++ "\x27",
          "export OUTPUT_SPLIT_SIZE=\x27" ++ pyToStr ss ++ "\x27"]
  else
    pure []

/-- Lines 155-158: the security block. -/
def securityLines (config : PyVal) : Except PyExc (List String) := do
  let c ← pyContains config "security"
  if c then
    let sc ← pySubscript config "security"
    let gc ← pyGet sc "generate_checksums" (.bool true)
    let ca ← pyGet sc "checksum_algorithm" (.str "sha256")
    pure ["export SECURITY_GENERATE_CHECKSUMS=" ++ asciiLower (pyToStr gc),
          "export SECURITY_CHECKSUM_ALGORITHM=\x27" ++ pyToStr ca ++ "\x27"]
  else
    pure []

/-- The full `env_lines` list built by `export_env_vars` (the source appends
the blocks to one list, in this order). -/
def export_env_lines (config : PyVal) : Except PyExc (List String) := do
  let a ← metaLines config
  let b ← enabledLines config
  let c ← npmLines config
  let d ← pypiLines config
  let e ← distroLines config "debian" "DEBIAN" "ubuntu" "22.04"
  let f ← distroLines config "rpm" "RPM" "rhel" "9"
  let g ← containersLines config
  let h ← outputLines config
  let i ← securityLines config
  pure (a ++ b ++ c ++ d ++ e ++ f ++ g ++ h ++ i)

/-- `export_env_vars` (line 160): the joined text block. -/
def export_env_vars (config : PyVal) : Except PyExc String := do
  let ls ← export_env_lines config
  pure (String.intercalate "\n" ls)

/-! ### Characterizing the projection blocks -/

theorem export_env_lines_blocks {config : PyVal} {L : List String}
    (h : export_env_lines config = .ok L) :
    ∃ a b c d e f g hh i,
      metaLines config = .ok a ∧ enabledLines config = .ok b ∧
      npmLines config = .ok c ∧ pypiLines config = .ok d ∧
      distroLines config "debian" "DEBIAN" "ubuntu" "22.04" = .ok e ∧
      distroLines config "rpm" "RPM" "rhel" "9" = .ok f ∧
      containersLines config = .ok g ∧ outputLines config = .ok hh ∧
      securityLines config = .ok i ∧
      L = a ++ b ++ c ++ d ++ e ++ f ++ g ++ hh ++ i := by
  unfold export_env_lines at h
  cases h1 : metaLines config with
  | error e => rw [h1, error_bind] at h; cases h
  | ok a =>
  rw [h1, ok_bind] at h
  cases h2 : enabledLines config with
  | error e => rw [h2, error_bind] at h; cases h
  | ok b =>
  rw [h2, ok_bind] at h
  cases h3 : npmLines config with
  | error e => rw [h3, error_bind] at h; cases h
  | ok c =>
  rw [h3, ok_bind] at h
  cases h4 : pypiLines config with
  | error e => rw [h4, error_bind] at h; cases h
  | ok d =>
  rw [h4, ok_bind] at h
  cases h5 : distroLines config "debian" "DEBIAN" "ubuntu" "22.04" with
  | error e => rw [h5, error_bind] at h; cases h
  | ok e =>
  rw [h5, ok_bind] at h
  cases h6 : distroLines config "rpm" "RPM" "rhel" "9" with
  | error e => rw [h6, error_bind] at h; cases h
  | ok f =>
  rw [h6, ok_bind] at h
  cases h7 : containersLines config with
  | error e => rw [h7, error_bind] at h; cases h
  | ok g =>
  rw [h7, ok_bind] at h
  cases h8 : outputLines config with
  | error e => rw [h8, error_bind] at h; cases h
  | ok hh =>
  rw [h8, ok_bind] at h
  cases h9 : securityLines config with
  | error e => rw [h9, error_bind] at h; cases h
  | ok i =>
  rw [h9, ok_bind] at h
  rw [pure_eq_ok] at h
  refine ⟨a, b, c, d, e, f, g, hh, i, rfl, rfl, rfl, rfl, rfl, rfl, rfl, rfl, rfl, ?_⟩
  injection h with h
  exact h.symm

/-- A validated document (the spec's Example 1/2 document). -/
def cMain : PyVal :=
  .dict [("metadata", .dict [("environment_name", .str "prod")]),
         ("npm", .dict [("enabled", .bool true), ("packages", .list [.str "left-pad"])])]

/-- The three unconditional lines of a distro block (debian: lines 127-129;
rpm: lines 136-138), with the source's defaults applied. -/
def distroBase (fs : List (String × PyVal)) (vp dD rD : String) : List String :=
  ["export " ++ vp ++ "_DISTRIBUTION=\x27"
     ++ pyToStr ((pyLookup fs "distribution").getD (.str dD)) ++ "\x27",
   "export " ++ vp ++ "_RELEASE=\x27"
     ++ pyToStr ((pyLookup fs "release").getD (.str rD)) ++ "\x27",
   "export " ++ vp ++ "_INCLUDE_DEPS="
     ++ asciiLower (pyToStr ((pyLookup fs "include_dependencies").getD (.bool true)))]

theorem distroLines_enabled_noarch {es fs : List (String × PyVal)}
    {name : String} (vp dD rD : String)
    (hlk : pyLookup es name = some (.dict fs))
    (hen : truthy ((pyLookup fs "enabled").getD .none) = true)
    (harch : pyLookup fs "architectures" = Option.none) :
    distroLines (.dict es) name vp dD rD = .ok (distroBase fs vp dD rD) := by
  unfold distroLines
  rw [show pyGet (.dict es) name (.dict [])
      = .ok ((pyLookup es name).getD (.dict [])) from rfl, hlk]
  simp only [Option.getD_some, ok_bind]
  rw [show pyGet (.dict fs) "enabled" .none
      = .ok ((pyLookup fs "enabled").getD .none) from rfl, ok_bind]
  rw [if_pos hen]
  rw [show pySubscript (.dict es) name
      = (match pyLookup es name with
         | some x => .ok x | Option.none => .error .keyError) from rfl, hlk, ok_bind]
  rw [show pyGet (.dict fs) "distribution" (.str dD)
      = .ok ((pyLookup fs "distribution").getD (.str dD)) from rfl, ok_bind]
  rw [show pyGet (.dict fs) "release" (.str rD)
      = .ok ((pyLookup fs "release").getD (.str rD)) from rfl, ok_bind]
  rw [show pyGet (.dict fs) "include_dependencies" (.bool true)
      = .ok ((pyLookup fs "include_dependencies").getD (.bool true)) from rfl, ok_bind]
  rw [show pyContains (.dict fs) "architectures"
      = .ok (pyLookup fs "architectures").isSome from rfl, ok_bind, harch]
  simp [distroBase]

theorem distroLines_enabled_arch {es fs : List (String × PyVal)}
    {name : String} (vp dD rD : String)
    (hlk : pyLookup es name = some (.dict fs))
    (hen : truthy ((pyLookup fs "enabled").getD .none) = true)
    {a : PyVal} (harch : pyLookup fs "architectures" = some a)
    {j : String} (hj : pyJoin a = .ok j) :
    distroLines (.dict es) name vp dD rD =
      .ok (distroBase fs vp dD rD
           ++ ["export " ++ vp ++ "_ARCHITECTURES=\x27" ++ j ++ "\x27"]) := by
  unfold distroLines
  rw [show pyGet (.dict es) name (.dict [])
      = .ok ((pyLookup es name).getD (.dict [])) from rfl, hlk]
  simp only [Option.getD_some, ok_bind]
  rw [show pyGet (.dict fs) "enabled" .none
      = .ok ((pyLookup fs "enabled").getD .none) from rfl, ok_bind]
  rw [if_pos hen]
  rw [show pySubscript (.dict es) name
      = (match pyLookup es name with
         | some x => .ok x | Option.none => .error .keyError) from rfl, hlk, ok_bind]
  rw [show pyGet (.dict fs) "distribution" (.str dD)
      = .ok ((pyLookup fs "distribution").getD (.str dD)) from rfl, ok_bind]
  rw [show pyGet (.dict fs) "release" (.str rD)
      = .ok ((pyLookup fs "release").getD (.str rD)) from rfl, ok_bind]
  rw [show pyGet (.dict fs) "include_dependencies" (.bool true)
      = .ok ((pyLookup fs "include_dependencies").getD (.bool true)) from rfl, ok_bind]
  rw [show pyContains (.dict fs) "architectures"
      = .ok (pyLookup fs "architectures").isSome from rfl, ok_bind, harch]
  rw [show pySubscript (.dict fs) "architectures"
      = (match pyLookup fs "architectures" with
         | some x => .ok x | Option.none => .error .keyError) from rfl, harch]
  simp [hj, distroBase]

theorem distroLines_enabled_arch_err {es fs : List (String × PyVal)}
    {name : String} (vp dD rD : String)
    (hlk : pyLookup es name = some (.dict fs))
    (hen : truthy ((pyLookup fs "enabled").getD .none) = true)
    {a : PyVal} (harch : pyLookup fs "architectures" = some a)
    {ex : PyExc} (hj : pyJoin a = .error ex) :
    distroLines (.dict es) name vp dD rD = .error ex := by
  unfold distroLines
  rw [show pyGet (.dict es) name (.dict [])
      = .ok ((pyLookup es name).getD (.dict [])) from rfl, hlk]
  simp only [Option.getD_some, ok_bind]
  rw [show pyGet (.dict fs) "enabled" .none
      = .ok ((pyLookup fs "enabled").getD .none) from rfl, ok_bind]
  rw [if_pos hen]
  rw [show pySubscript (.dict es) name
      = (match pyLookup es name with
         | some x => .ok x | Option.none => .error .keyError) from rfl, hlk, ok_bind]
  rw [show pyGet (.dict fs) "distribution" (.str dD)
      = .ok ((pyLookup fs "distribution").getD (.str dD)) from rfl, ok_bind]
  rw [show pyGet (.dict fs) "release" (.str rD)
      = .ok ((pyLookup fs "release").getD (.str rD)) from rfl, ok_bind]
  rw [show pyGet (.dict fs) "include_dependencies" (.bool true)
      = .ok ((pyLookup fs "include_dependencies").getD (.bool true)) from rfl, ok_bind]
  rw [show pyContains (.dict fs) "architectures"
      = .ok (pyLookup fs "architectures").isSome from rfl, ok_bind, harch]
  rw [show pySubscript (.dict fs) "architectures"
      = (match pyLookup fs "architectures" with
         | some x => .ok x | Option.none => .error .keyError) from rfl, harch]
  simp [hj]

theorem mem_block5 {L a b c d e f g hh i : List String}
    (hL : L = a ++ b ++ c ++ d ++ e ++ f ++ g ++ hh ++ i) {x : String}
    (hx : x ∈ e) : x ∈ L := by
  subst hL
  simp only [List.mem_append]
  tauto

theorem mem_block6 {L a b c d e f g hh i : List String}
    (hL : L = a ++ b ++ c ++ d ++ e ++ f ++ g ++ hh ++ i) {x : String}
    (hx : x ∈ f) : x ∈ L := by
  subst hL
  simp only [List.mem_append]
  tauto

/-- The conjunction of C7's guarantees for one distro block. -/
abbrev DistroClaims (L : List String) (fs : List (String × PyVal))
    (block : Except PyExc (List String)) (vp dD rD : String) : Prop :=
  (pyLookup fs "distribution" = Option.none →
    ("export " ++ vp ++ "_DISTRIBUTION=\x27" ++ dD ++ "\x27") ∈ L) ∧
  (pyLookup fs "release" = Option.none →
    ("export " ++ vp ++ "_RELEASE=\x27" ++ rD ++ "\x27") ∈ L) ∧
  (pyLookup fs "include_dependencies" = Option.none →
    ("export " ++ vp ++ "_INCLUDE_DEPS=true") ∈ L) ∧
  (∀ a, pyLookup fs "architectures" = some a →
    ∃ j, pyJoin a = .ok j ∧ ("export " ++ vp ++ "_ARCHITECTURES=\x27" ++ j ++ "\x27") ∈ L) ∧
  (pyLookup fs "architectures" = Option.none → block = .ok (distroBase fs vp dD rD))

theorem distro_claims_of {es fs : List (String × PyVal)} {name : String}
    (vp dD rD : String) {L : List String} {blk : List String}
    (hblk : distroLines (.dict es) name vp dD rD = .ok blk)
    (hmem : ∀ x ∈ blk, x ∈ L)
    (hlk : pyLookup es name = some (.dict fs))
    (hen : truthy ((pyLookup fs "enabled").getD .none) = true) :
    DistroClaims L fs (distroLines (.dict es) name vp dD rD) vp dD rD := by
  have hbase : ∀ x ∈ distroBase fs vp dD rD, x ∈ L := by
    intro x hx
    cases harch : pyLookup fs "architectures" with
    | none =>
      rw [distroLines_enabled_noarch vp dD rD hlk hen harch] at hblk
      injection hblk with hblk
      exact hmem x (hblk ▸ hx)
    | some a =>
      cases hj : pyJoin a with
      | error ex =>
        rw [distroLines_enabled_arch_err vp dD rD hlk hen harch hj] at hblk
        cases hblk
      | ok j =>
        rw [distroLines_enabled_arch vp dD rD hlk hen harch hj] at hblk
        injection hblk with hblk
        exact hmem x (hblk ▸ List.mem_append.mpr (Or.inl hx))
  refine ⟨?_, ?_, ?_, ?_, ?_⟩
  · intro hd
    have hx : ("export " ++ vp ++ "_DISTRIBUTION=\x27" ++ dD ++ "\x27")
        ∈ distroBase fs vp dD rD := by
      unfold distroBase
      rw [hd]
      simp [pyToStr]
    exact hbase _ hx
  · intro hr
    have hx : ("export " ++ vp ++ "_RELEASE=\x27" ++ rD ++ "\x27")
        ∈ distroBase fs vp dD rD := by
      unfold distroBase
      rw [hr]
      simp [pyToStr]
    exact hbase _ hx
  · intro hi
    have hx : ("export " ++ vp ++ "_INCLUDE_DEPS=true") ∈ distroBase fs vp dD rD := by
      unfold distroBase
      rw [hi]
      simp only [Option.getD_none]
      have he : ("export " ++ vp ++ "_INCLUDE_DEPS=") ++ asciiLower (pyToStr (PyVal.bool true))
          = "export " ++ vp ++ "_INCLUDE_DEPS=true" := by
        rw [String.append_assoc ("export " ++ vp) "_INCLUDE_DEPS="]
        rfl
      rw [he]
      simp
    exact hbase _ hx
  · intro a harch
    cases hj : pyJoin a with
    | error ex =>
      rw [distroLines_enabled_arch_err vp dD rD hlk hen harch hj] at hblk
      cases hblk
    | ok j =>
      refine ⟨j, rfl, ?_⟩
      rw [distroLines_enabled_arch vp dD rD hlk hen harch hj] at hblk
      injection hblk with hblk
      exact hmem _ (hblk ▸ List.mem_append.mpr (Or.inr (List.mem_singleton.mpr rfl)))
  · intro harch
    exact distroLines_enabled_noarch vp dD rD hlk hen harch

/-- C7: for every validated document whose environment projection succeeds:
if debian is enabled, the output contains distribution/release/dependency
lines defaulting to `ubuntu` / `22.04` / `true` when the fields are absent;
if rpm is enabled, the analogous lines default to `rhel` / `9` / `true`;
in both cases the comma-joined architectures line is emitted when the
architecture list is present, and the block consists of exactly the three
base lines (no architectures line) when it is absent. -/
theorem env_distro_defaults (config : PyVal)
    (_hv : validate_errors config = .ok [])
    (L : List String) (h : export_env_lines config = .ok L)
    (es : List (String × PyVal)) (hc : config = .dict es) :
    (∀ fs, pyLookup es "debian" = some (.dict fs) →
      truthy ((pyLookup fs "enabled").getD .none) = true →
      DistroClaims L fs (distroLines (.dict es) "debian" "DEBIAN" "ubuntu" "22.04")
        "DEBIAN" "ubuntu" "22.04") ∧
    (∀ fs, pyLookup es "rpm" = some (.dict fs) →
      truthy ((pyLookup fs "enabled").getD .none) = true →
      DistroClaims L fs (distroLines (.dict es) "rpm" "RPM" "rhel" "9")
        "RPM" "rhel" "9") := by
  subst hc
  obtain ⟨a, b, c, d, e, f, g, hh, i, -, -, -, -, h5, h6, -, -, -, hL⟩ :=
    export_env_lines_blocks h
  constructor
  · intro fs hlk hen
    exact distro_claims_of "DEBIAN" "ubuntu" "22.04" h5
      (fun x hx => mem_block5 hL hx) hlk hen
  · intro fs hlk hen
    exact distro_claims_of "RPM" "rhel" "9" h6
      (fun x hx => mem_block6 hL hx) hlk hen

/-- A validated document with debian enabled (all fields defaulted) and rpm
enabled with an architecture list. -/
def cDistro : PyVal :=
  .dict [("metadata", .dict []),
         ("debian", .dict [("enabled", .bool true), ("packages", .list [.str "curl"])]),
         ("rpm", .dict [("enabled", .bool true), ("packages", .list [.str "vim"]),
                        ("architectures", .list [.str "x86_64", .str "aarch64"])])]

/-- The env-line list of `cDistro`. -/
def cDistroLines : List String :=
  ["export ENV_NAME=\x27default\x27", "export ENV_DESC=\x27\x27",
   "export NPM_ENABLED=false", "export PYPI_ENABLED=false",
   "export DEBIAN_ENABLED=true", "export RPM_ENABLED=true",
   "export CONTAINERS_ENABLED=false", "export VSCODE_ENABLED=false",
   "export DEBIAN_DISTRIBUTION=\x27ubuntu\x27", "export DEBIAN_RELEASE=\x2722.04\x27",
   "export DEBIAN_INCLUDE_DEPS=true",
   "export RPM_DISTRIBUTION=\x27rhel\x27", "export RPM_RELEASE=\x279\x27",
   "export RPM_INCLUDE_DEPS=true",
   "export RPM_ARCHITECTURES=\x27x86_64,aarch64\x27"]

/-- Witness for C7. -/
theorem env_distro_defaults_witness :
    validate_errors cDistro = .ok [] ∧
    export_env_lines cDistro = .ok cDistroLines ∧
    "export DEBIAN_DISTRIBUTION=\x27ubuntu\x27" ∈ cDistroLines ∧
    "export DEBIAN_RELEASE=\x2722.04\x27" ∈ cDistroLines ∧
    "export DEBIAN_INCLUDE_DEPS=true" ∈ cDistroLines ∧
    "export RPM_ARCHITECTURES=\x27x86_64,aarch64\x27" ∈ cDistroLines := by
  have h := env_distro_defaults cDistro rfl cDistroLines rfl _ rfl
  obtain ⟨hd, hr, hi, -, -⟩ := h.1 _ rfl rfl
  obtain ⟨-, -, -, harch, -⟩ := h.2 _ rfl rfl
  refine ⟨rfl, rfl, hd rfl, hr rfl, hi rfl, ?_⟩
  obtain ⟨j, hj, hm⟩ := harch (PyVal.list [.str "x86_64", .str "aarch64"]) rfl
  rw [show pyJoin (PyVal.list [.str "x86_64", .str "aarch64"])
      = .ok "x86_64,aarch64" from rfl] at hj
  injection hj with hj
  subst hj
  exact hm

/-! ### Claim C10 -/

theorem metaLines_present {es md : List (String × PyVal)}
    (hm : pyLookup es "metadata" = some (.dict md)) :
    metaLines (.dict es) = .ok
      ["export ENV_NAME=\x27"
         ++ pyToStr ((pyLookup md "environment_name").getD (.str "default")) ++ "\x27",
       "export ENV_DESC=\x27"
         ++ pyToStr ((pyLookup md "description").getD (.str "")) ++ "\x27"] := by
  unfold metaLines
  rw [show pyContains (.dict es) "metadata"
      = .ok (pyLookup es "metadata").isSome from rfl, hm, ok_bind]
  rw [if_pos (by simp)]
  rw [show pySubscript (.dict es) "metadata"
      = (match pyLookup es "metadata" with
         | some x => .ok x | Option.none => .error .keyError) from rfl, hm, ok_bind]
  rfl

theorem mem_block1 {L a b c d e f g hh i : List String}
    (hL : L = a ++ b ++ c ++ d ++ e ++ f ++ g ++ hh ++ i) {x : String}
    (hx : x ∈ a) : x ∈ L := by
  subst hL
  simp only [List.mem_append]
  tauto

/-- A shell variable-name character. -/
def isNameChar (c : Char) : Bool := c.isAlpha || c.isDigit || c = '_'

/-- The single-quote character. -/
def sqChar : Char := Char.ofNat 39

/-- After `export NAME='`: the rest of a well-formed single-quoted
assignment is quote-free, newline-free text closed by a final quote. -/
def wfTail : List Char → Bool
  | [] => false
  | [c] => c = sqChar
  | c :: rest => (!(c = sqChar) && !(c = '\n')) && wfTail rest

/-- After `export ` and one name character: the rest of the name, then
`='`, then the quoted tail. -/
def wfAfterName : List Char → Bool
  | [] => false
  | c :: rest =>
    if c = '=' then
      match rest with
      | q :: rest2 => q = sqChar && wfTail rest2
      | [] => false
    else isNameChar c && wfAfterName rest

/-- Is `s` one well-formed single-quoted shell assignment
`export NAME='value'` (name alphanumeric/underscore, value free of single
quotes and newlines)? -/
def wellFormedAssignB (s : String) : Bool :=
  match s.data with
  | 'e' :: 'x' :: 'p' :: 'o' :: 'r' :: 't' :: ' ' :: c :: rest => isNameChar c && wfAfterName rest
  | _ => false

example : wellFormedAssignB "export ENV_NAME=\x27prod\x27" = true := by decide

example : wellFormedAssignB "export ENV_DESC=\x27\x27" = true := by decide

/-- The C10 document: its description contains a single quote. -/
def cC10 : PyVal := .dict [("metadata", .dict [("description", .str "it\x27s")])]

/-- C10: the description line interpolates the description value verbatim
between two single quotes with no escaping; for a value containing a quote
the emitted line is not one well-formed single-quoted shell assignment. -/
theorem env_desc_verbatim :
    (∀ (es md : List (String × PyVal)) (d : String),
      pyLookup es "metadata" = some (.dict md) →
      pyLookup md "description" = some (.str d) →
      metaLines (.dict es) = .ok
        ["export ENV_NAME=\x27"
           ++ pyToStr ((pyLookup md "environment_name").getD (.str "default")) ++ "\x27",
         "export ENV_DESC=\x27" ++ d ++ "\x27"] ∧
      (∀ L, export_env_lines (.dict es) = .ok L →
        ("export ENV_DESC=\x27" ++ d ++ "\x27") ∈ L)) ∧
    (metaLines cC10 =
       .ok ["export ENV_NAME=\x27default\x27", "export ENV_DESC=\x27it\x27s\x27"] ∧
     wellFormedAssignB "export ENV_DESC=\x27it\x27s\x27" = false) := by
  constructor
  · intro es md d hm hdesc
    have hml : metaLines (.dict es) = .ok
        ["export ENV_NAME=\x27"
           ++ pyToStr ((pyLookup md "environment_name").getD (.str "default")) ++ "\x27",
         "export ENV_DESC=\x27" ++ d ++ "\x27"] := by
      rw [metaLines_present hm, hdesc]
      rfl
    refine ⟨hml, ?_⟩
    intro L hL
    obtain ⟨a, b, c, dd, e, f, g, hh, i, h1, -, -, -, -, -, -, -, -, hLB⟩ :=
      export_env_lines_blocks hL
    rw [hml] at h1
    injection h1 with h1
    refine mem_block1 hLB ?_
    rw [← h1]
    simp
  · exact ⟨rfl, by decide⟩

/-- Witness for C10 at `cC10`. -/
theorem env_desc_verbatim_witness :
    metaLines cC10 =
      .ok ["export ENV_NAME=\x27default\x27", "export ENV_DESC=\x27it\x27s\x27"] ∧
    ("export ENV_DESC=\x27it\x27s\x27" ∈
      ["export ENV_NAME=\x27default\x27", "export ENV_DESC=\x27it\x27s\x27"]) := by
  have h := (env_desc_verbatim.1 [("metadata", .dict [("description", .str "it\x27s")])]
    [("description", .str "it\x27s")] "it\x27s" rfl rfl).1
  exact ⟨h, by decide⟩

/-! ### Claim C4: the program's exit behaviour (`load_config` + `main`) -/

/-- What the input path yields: no file, a file that is not valid YAML
(with the parser's message), or a parsed document. -/
inductive LoadInput where
  | missing
  | malformed (msg : String)
  | parsed (v : PyVal)

/-- `--format` choice. -/
inductive Fmt where
  | json
  | env
deriving DecidableEq

/-- Observable result of one run: exit code, stdout lines, stderr lines. -/
structure RunResult where
  exitCode : Nat
  stdout : List String
  stderr : List String
deriving DecidableEq

/-- `load_config` (lines 14-25): returns the document, or the stderr line
and non-zero exit. -/
def load_config (path : String) : LoadInput → Except (List String) PyVal
  | .missing => .error ["Error: Configuration file not found: " ++ path]
  | .malformed m => .error ["Error: Invalid YAML in configuration file: " ++ m]
  | .parsed v => .ok v

/-- Serialized JSON text of the document (`json.dumps(config, indent=2)`,
whitespace elided as parse-irrelevant); the full definition of `dumpVal`
appears with claim C6 below. -/
def dumpValStub : Unit := ()

/-- `main` (lines 163-198), for runs without `--output` (file-write behaviour
is out of the claims' scope): load, validate, then either confirm
(validate-only) or project.  An uncaught Python exception terminates the
interpreter with exit code 1 and a traceback on stderr. -/
def runMain (path : String) (inp : LoadInput) (validateOnly : Bool) (fmt : Fmt)
    (jsonText : PyVal → String) : RunResult :=
  match load_config path inp with
  | .error msgs => ⟨1, [], msgs⟩
  | .ok config =>
    match validate_config config with
    | .error _ => ⟨1, [], ["Traceback (most recent call last):"]⟩
    | .ok (.invalid report) => ⟨1, [], report⟩
    | .ok .valid =>
      if validateOnly then ⟨0, ["Configuration is valid"], []⟩
      else
        match fmt with
        | .json => ⟨0, [jsonText config], []⟩
        | .env =>
          match export_env_vars config with
          | .ok s => ⟨0, [s], []⟩
          | .error _ => ⟨1, [], ["Traceback (most recent call last):"]⟩

/-- C4 (amended): the program exits 0 iff the input loads and parses, the
document validates, and the requested projection raises no exception (which
`--validate-only` and `--format json` never do, but `--format env` can on a
validated document).  A missing file, a malformed file, and validation
violations each exit non-zero with the diagnostic on stderr. -/
theorem exit_zero_iff (path : String) (inp : LoadInput) (vo : Bool) (fmt : Fmt)
    (jsonText : PyVal → String) :
    ((runMain path inp vo fmt jsonText).exitCode = 0 ↔
      (∃ v, inp = .parsed v ∧ validate_config v = .ok .valid ∧
        (vo = true ∨ fmt = .json ∨ ∃ s, export_env_vars v = .ok s))) ∧
    (inp = .missing →
      (runMain path inp vo fmt jsonText).exitCode = 1 ∧
      (runMain path inp vo fmt jsonText).stderr =
        ["Error: Configuration file not found: " ++ path]) ∧
    (∀ m, inp = .malformed m →
      (runMain path inp vo fmt jsonText).exitCode = 1 ∧
      (runMain path inp vo fmt jsonText).stderr =
        ["Error: Invalid YAML in configuration file: " ++ m]) ∧
    (∀ v report, inp = .parsed v → validate_config v = .ok (.invalid report) →
      (runMain path inp vo fmt jsonText).exitCode = 1 ∧
      (runMain path inp vo fmt jsonText).stderr = report) := by
  refine ⟨?_, ?_, ?_, ?_⟩
  · cases inp with
    | missing =>
      simp only [runMain, load_config]
      constructor
      · intro h; simp at h
      · rintro ⟨v, hv, -⟩; cases hv
    | malformed m =>
      simp only [runMain, load_config]
      constructor
      · intro h; simp at h
      · rintro ⟨v, hv, -⟩; cases hv
    | parsed v =>
      simp only [runMain, load_config]
      cases hvc : validate_config v with
      | error e =>
        constructor
        · intro h; simp at h
        · rintro ⟨w, hw, hval, -⟩
          injection hw with hw
          subst hw
          rw [hvc] at hval
          cases hval
      | ok verdict =>
        cases verdict with
        | invalid report =>
          constructor
          · intro h; simp at h
          · rintro ⟨w, hw, hval, -⟩
            injection hw with hw
            subst hw
            rw [hvc] at hval
            injection hval with hval
            cases hval
        | valid =>
          cases vo with
          | true =>
            constructor
            · intro _
              exact ⟨v, rfl, hvc, Or.inl rfl⟩
            · intro _
              rfl
          | false =>
            cases fmt with
            | json =>
              constructor
              · intro _
                exact ⟨v, rfl, hvc, Or.inr (Or.inl rfl)⟩
              · intro _
                rfl
            | env =>
              cases hex : export_env_vars v with
              | ok s =>
                constructor
                · intro _
                  exact ⟨v, rfl, hvc, Or.inr (Or.inr ⟨s, hex⟩)⟩
                · intro _
                  rfl
              | error e =>
                constructor
                · intro h
                  simp at h
                · rintro ⟨w, hw, hval, hcase⟩
                  injection hw with hw
                  subst hw
                  rcases hcase with h1 | h2 | ⟨s, hs⟩
                  · cases h1
                  · cases h2
                  · rw [hex] at hs
                    cases hs
  · rintro rfl
    exact ⟨rfl, rfl⟩
  · rintro m rfl
    exact ⟨rfl, rfl⟩
  · rintro v report rfl hvc
    simp [runMain, load_config, hvc]

/-- The C4 counterexample document: it validates, but its `metadata` value is
a string, so the env projection raises AttributeError. -/
def cC4 : PyVal :=
  .dict [("metadata", .str "oops"),
         ("npm", .dict [("enabled", .bool true), ("packages", .list [.str "a"])])]

/-- C4 counterexample: with `--format env`, loading, parsing and validation
all succeed on `cC4`, yet the program exits 1 (uncaught exception during
projection) — refuting "exit 0 iff loading, parsing and validation
succeed". -/
theorem exit_zero_claim_counterexample :
    load_config "cfg.yaml" (.parsed cC4) = .ok cC4 ∧
    validate_config cC4 = .ok .valid ∧
    (runMain "cfg.yaml" (.parsed cC4) false .env (fun _ => "")).exitCode = 1 := by
  exact ⟨rfl, rfl, rfl⟩

/-! ### Claim C6: the JSON projection and re-loading

`export_json` (lines 84-93) emits `json.dumps(config, indent=2)`; the
round-trip re-loads that text with `yaml.safe_load` (JSON is valid YAML).
We model the serialized text by `dumpVal` (whitespace elided — the loader is
insensitive to it) and the loader, restricted to JSON texts, by `parseVal`.
String escaping models the content-relevant JSON escapes
(`\" \\ \n \t \r`); `ensure_ascii` hex escapes decode to the same characters
and are elided. -/

/-- `'\x7b'`. -/
def openB : Char := Char.ofNat 123

/-- `'\x7d'`. -/
def closeB : Char := Char.ofNat 125

/-- The decimal digit character of `d` (for `d ≤ 9`). -/
def digitChar (d : Nat) : Char :=
  if d = 0 then '0' else if d = 1 then '1' else if d = 2 then '2'
  else if d = 3 then '3' else if d = 4 then '4' else if d = 5 then '5'
  else if d = 6 then '6' else if d = 7 then '7' else if d = 8 then '8' else '9'

/-- The numeric value of a digit character. -/
def charVal (c : Char) : Nat := c.toNat - 48

/-- Decimal digits of `n`, most significant first. -/
def natDigs (n : Nat) : List Char :=
  if n < 10 then [digitChar n] else natDigs (n / 10) ++ [digitChar (n % 10)]
decreasing_by exact Nat.div_lt_self (by omega) (by omega)

/-- Decimal representation of an integer. -/
def dumpInt (n : Int) : List Char :=
  if n < 0 then '-' :: natDigs (-n).toNat else natDigs n.toNat

/-- JSON escape of one character. -/
def escChar (c : Char) : List Char :=
  if c = '"' then ['\\', '"']
  else if c = '\\' then ['\\', '\\']
  else if c = '\n' then ['\\', 'n']
  else if c = '\t' then ['\\', 't']
  else if c = '\r' then ['\\', 'r']
  else [c]

/-- JSON escape of a string body. -/
def escStr : List Char → List Char
  | [] => []
  | c :: cs => escChar c ++ escStr cs

/-- The keyword texts of the three JSON constants. -/
def nullChars : List Char := ['n', 'u', 'l', 'l']

def trueChars : List Char := ['t', 'r', 'u', 'e']

def falseChars : List Char := ['f', 'a', 'l', 's', 'e']

mutual
/-- The JSON text of a document (`json.dumps`, whitespace elided). -/
def dumpVal : PyVal → List Char
  | .none => nullChars
  | .bool true => trueChars
  | .bool false => falseChars
  | .int n => dumpInt n
  | .str s => '"' :: (escStr s.data ++ ['"'])
  | .list xs => '[' :: (dumpItems xs ++ [']'])
  | .dict es => openB :: (dumpEntries es ++ [closeB])

def dumpItems : List PyVal → List Char
  | [] => []
  | x :: xs => dumpVal x ++ dumpItemsRest xs

def dumpItemsRest : List PyVal → List Char
  | [] => []
  | x :: xs => ',' :: (dumpVal x ++ dumpItemsRest xs)

def dumpEntries : List (String × PyVal) → List Char
  | [] => []
  | (k, v) :: es => ('"' :: (escStr k.data ++ '"' :: ':' :: dumpVal v)) ++ dumpEntriesRest es

def dumpEntriesRest : List (String × PyVal) → List Char
  | [] => []
  | (k, v) :: es =>
    ',' :: (('"' :: (escStr k.data ++ '"' :: ':' :: dumpVal v)) ++ dumpEntriesRest es)
end

/-- Greedily consume decimal digits. -/
def parseDigits : Nat → List Char → Nat × List Char
  | acc, [] => (acc, [])
  | acc, c :: cs =>
    if c.isDigit then parseDigits (acc * 10 + charVal c) cs else (acc, c :: cs)

/-- Decode one JSON escape character. -/
def escDecode (e : Char) : Option Char :=
  if e = 'n' then some '\n' else if e = 't' then some '\t'
  else if e = 'r' then some '\r' else if e = '"' then some '"'
  else if e = '\\' then some '\\' else Option.none

/-- Parse a JSON string body up to its closing quote. -/
def parseStrBody : List Char → Option (List Char × List Char)
  | [] => Option.none
  | c :: rest =>
    if c = '"' then some ([], rest)
    else if c = '\\' then
      match rest with
      | [] => Option.none
      | e :: rest2 =>
        match escDecode e with
        | some d =>
          match parseStrBody rest2 with
          | some (s, r) => some (d :: s, r)
          | Option.none => Option.none
        | Option.none => Option.none
    else
      match parseStrBody rest with
      | some (s, r) => some (c :: s, r)
      | Option.none => Option.none

/-- Parse a negative decimal number (after a leading `-`). -/
def parseNeg (rest : List Char) : Option (PyVal × List Char) :=
  match rest with
  | [] => Option.none
  | c2 :: _ =>
    if c2.isDigit then
      let p := parseDigits 0 rest
      some (.int (-(p.1 : Int)), p.2)
    else Option.none

/-- Parse the literal keywords `null` / `true` / `false`. -/
def parseKeyword (c : Char) (rest : List Char) : Option (PyVal × List Char) :=
  if c = 'n' then
    match rest with
    | 'u' :: 'l' :: 'l' :: r => some (.none, r)
    | _ => Option.none
  else if c = 't' then
    match rest with
    | 'r' :: 'u' :: 'e' :: r => some (.bool true, r)
    | _ => Option.none
  else if c = 'f' then
    match rest with
    | 'a' :: 'l' :: 's' :: 'e' :: r => some (.bool false, r)
    | _ => Option.none
  else Option.none

mutual
/-- Parse one JSON value (fuel-indexed recursive descent). -/
def parseVal : Nat → List Char → Option (PyVal × List Char)
  | 0, _ => Option.none
  | _ + 1, [] => Option.none
  | fuel + 1, c :: rest =>
    if c = '"' then
      (parseStrBody rest).map (fun p => (.str (String.mk p.1), p.2))
    else if c = '[' then
      (parseItems fuel rest).map (fun p => (.list p.1, p.2))
    else if c = openB then
      (parseEntries fuel rest).map (fun p => (.dict p.1, p.2))
    else if c = '-' then
      parseNeg rest
    else if c.isDigit then
      let p := parseDigits 0 (c :: rest)
      some (.int (p.1 : Int), p.2)
    else parseKeyword c rest

/-- Parse the items of a JSON array after `[`, consuming the closing `]`. -/
def parseItems : Nat → List Char → Option (List PyVal × List Char)
  | 0, _ => Option.none
  | _ + 1, [] => Option.none
  | fuel + 1, c :: rest =>
    if c = ']' then some ([], rest)
    else
      match parseVal fuel (c :: rest) with
      | some (v, r) =>
        match r with
        | [] => Option.none
        | c2 :: r2 =>
          if c2 = ',' then
            match parseItems fuel r2 with
            | some (xs, r3) => some (v :: xs, r3)
            | Option.none => Option.none
          else if c2 = ']' then some ([v], r2)
          else Option.none
      | Option.none => Option.none

/-- Parse the entries of a JSON object, consuming the closing brace. -/
def parseEntries : Nat → List Char → Option (List (String × PyVal) × List Char)
  | 0, _ => Option.none
  | _ + 1, [] => Option.none
  | fuel + 1, c :: rest =>
    if c = closeB then some ([], rest)
    else if c = '"' then
      match parseStrBody rest with
      | some (k, r1) =>
        match r1 with
        | [] => Option.none
        | c2 :: r2 =>
          if c2 = ':' then
            match parseVal fuel r2 with
            | some (v, r3) =>
              match r3 with
              | [] => Option.none
              | c3 :: r4 =>
                if c3 = ',' then
                  match parseEntries fuel r4 with
                  | some (es, r5) => some ((String.mk k, v) :: es, r5)
                  | Option.none => Option.none
                else if c3 = closeB then some ([(String.mk k, v)], r4)
                else Option.none
            | Option.none => Option.none
          else Option.none
      | Option.none => Option.none
    else Option.none
end

/-- The JSON text `export_json` emits for the document. -/
def export_json (config : PyVal) : String := String.mk (dumpVal config)

/-- `yaml.safe_load` restricted to the JSON texts the projection emits. -/
def yaml_load_str (s : String) : Option PyVal :=
  match parseVal (s.data.length + 1) s.data with
  | some (v, []) => some v
  | _ => Option.none

/-! ### Round-trip lemmas -/

/-- The continuation after a serialized fragment must not begin with a
digit (greedy number parsing). -/
def noLeadDigit : List Char → Prop
  | [] => True
  | c :: _ => c.isDigit = false

theorem isDigit_digitChar (d : Nat) : (digitChar d).isDigit = true := by
  unfold digitChar
  repeat' split
  all_goals decide

theorem charVal_digitChar {d : Nat} (h : d < 10) : charVal (digitChar d) = d := by
  interval_cases d <;> rfl

theorem ne_of_isDigit {c x : Char} (hc : c.isDigit = true) (hx : x.isDigit = false) :
    c ≠ x := by
  intro he
  rw [he, hx] at hc
  cases hc

theorem natDigs_eq (n : Nat) :
    natDigs n = if n < 10 then [digitChar n]
                else natDigs (n / 10) ++ [digitChar (n % 10)] := by
  conv_lhs => unfold natDigs

theorem natDigs_cons (n : Nat) : ∃ d tl, d < 10 ∧ natDigs n = digitChar d :: tl := by
  induction n using Nat.strong_induction_on with
  | _ n ih =>
    rw [natDigs_eq n]
    split
    · exact ⟨n, [], by omega, rfl⟩
    · obtain ⟨d, tl, hd, he⟩ := ih (n / 10) (Nat.div_lt_self (by omega) (by omega))
      exact ⟨d, tl ++ [digitChar (n % 10)], hd, by rw [he]; rfl⟩

theorem parseDigits_noLead {acc : Nat} {cs : List Char} (h : noLeadDigit cs) :
    parseDigits acc cs = (acc, cs) := by
  cases cs with
  | nil => rfl
  | cons c cs =>
    simp only [noLeadDigit] at h
    simp only [parseDigits]
    rw [if_neg (by rw [h]; simp)]

theorem parseDigits_natDigs_chain (n : Nat) : ∀ acc rest,
    parseDigits acc (natDigs n ++ rest)
      = parseDigits (acc * 10 ^ (natDigs n).length + n) rest := by
  induction n using Nat.strong_induction_on with
  | _ n ih =>
    intro acc rest
    by_cases h10 : n < 10
    · rw [natDigs_eq n, if_pos h10, List.singleton_append]
      simp only [parseDigits]
      rw [if_pos (isDigit_digitChar n), charVal_digitChar h10]
      simp
    · rw [natDigs_eq n, if_neg h10]
      rw [List.append_assoc, List.singleton_append]
      rw [ih (n / 10) (Nat.div_lt_self (by omega) (by omega))]
      simp only [parseDigits]
      rw [if_pos (isDigit_digitChar (n % 10)), charVal_digitChar (Nat.mod_lt n (by omega))]
      congr 1
      rw [List.length_append, List.length_cons, List.length_nil, Nat.zero_add]
      have h2 : n / 10 * 10 + n % 10 = n := by omega
      calc (acc * 10 ^ (natDigs (n / 10)).length + n / 10) * 10 + n % 10
          = acc * 10 ^ (natDigs (n / 10)).length * 10 + (n / 10 * 10 + n % 10) := by ring
        _ = acc * 10 ^ (natDigs (n / 10)).length * 10 + n := by rw [h2]
        _ = acc * 10 ^ ((natDigs (n / 10)).length + 1) + n := by rw [pow_succ]; ring

theorem parseDigits_natDigs {n : Nat} {rest : List Char} (h : noLeadDigit rest) :
    parseDigits 0 (natDigs n ++ rest) = (n, rest) := by
  rw [parseDigits_natDigs_chain, parseDigits_noLead h]
  simp

theorem parseStrBody_esc (s : List Char) : ∀ rest,
    parseStrBody (escStr s ++ '"' :: rest) = some (s, rest) := by
  induction s with
  | nil =>
    intro rest
    simp only [escStr, List.nil_append]
    rw [parseStrBody.eq_def]
    simp
  | cons c cs ih =>
    intro rest
    simp only [escStr, List.append_assoc]
    by_cases h1 : c = '"'
    · subst h1
      rw [show escChar '"' = ['\\', '"'] from rfl]
      simp only [List.cons_append, List.nil_append]
      rw [parseStrBody.eq_def]
      simp [escDecode, ih rest]
    · by_cases h2 : c = '\\'
      · subst h2
        rw [show escChar '\\' = ['\\', '\\'] from rfl]
        simp only [List.cons_append, List.nil_append]
        rw [parseStrBody.eq_def]
        simp [escDecode, ih rest]
      · by_cases h3 : c = '\n'
        · subst h3
          rw [show escChar '\n' = ['\\', 'n'] from rfl]
          simp only [List.cons_append, List.nil_append]
          rw [parseStrBody.eq_def]
          simp [escDecode, ih rest]
        · by_cases h4 : c = '\t'
          · subst h4
            rw [show escChar '\t' = ['\\', 't'] from rfl]
            simp only [List.cons_append, List.nil_append]
            rw [parseStrBody.eq_def]
            simp [escDecode, ih rest]
          · by_cases h5 : c = '\r'
            · subst h5
              rw [show escChar '\r' = ['\\', 'r'] from rfl]
              simp only [List.cons_append, List.nil_append]
              rw [parseStrBody.eq_def]
              simp [escDecode, ih rest]
            · rw [show escChar c = [c] by
                unfold escChar
                rw [if_neg h1, if_neg h2, if_neg h3, if_neg h4, if_neg h5]]
              simp only [List.cons_append, List.nil_append]
              rw [parseStrBody.eq_def]
              simp [h1, h2, ih rest]

theorem strMk_data (s : String) : String.mk s.data = s := rfl

theorem dumpVal_none : dumpVal .none = nullChars := by rw [dumpVal.eq_def]

theorem dumpVal_true : dumpVal (.bool true) = trueChars := by rw [dumpVal.eq_def]

theorem dumpVal_false : dumpVal (.bool false) = falseChars := by
  rw [dumpVal.eq_def]

theorem dumpVal_int (n : Int) : dumpVal (.int n) = dumpInt n := by rw [dumpVal.eq_def]

theorem dumpVal_str (s : String) :
    dumpVal (.str s) = '"' :: (escStr s.data ++ ['"']) := by rw [dumpVal.eq_def]

theorem dumpVal_list (xs : List PyVal) :
    dumpVal (.list xs) = '[' :: (dumpItems xs ++ [']']) := by rw [dumpVal.eq_def]

theorem dumpVal_dict (es : List (String × PyVal)) :
    dumpVal (.dict es) = openB :: (dumpEntries es ++ [closeB]) := by rw [dumpVal.eq_def]

theorem dumpItems_nil : dumpItems [] = [] := by rw [dumpItems.eq_def]

theorem dumpItems_cons (x : PyVal) (xs : List PyVal) :
    dumpItems (x :: xs) = dumpVal x ++ dumpItemsRest xs := by rw [dumpItems.eq_def]

theorem dumpItemsRest_nil : dumpItemsRest [] = [] := by rw [dumpItemsRest.eq_def]

theorem dumpItemsRest_cons (x : PyVal) (xs : List PyVal) :
    dumpItemsRest (x :: xs) = ',' :: (dumpVal x ++ dumpItemsRest xs) := by
  rw [dumpItemsRest.eq_def]

theorem dumpEntries_nil : dumpEntries [] = [] := by rw [dumpEntries.eq_def]

theorem dumpEntries_cons (e : String × PyVal) (es : List (String × PyVal)) :
    dumpEntries (e :: es)
      = ('"' :: (escStr e.1.data ++ '"' :: ':' :: dumpVal e.2)) ++ dumpEntriesRest es := by
  obtain ⟨k, v⟩ := e
  rw [dumpEntries.eq_def]

theorem dumpEntriesRest_nil : dumpEntriesRest [] = [] := by rw [dumpEntriesRest.eq_def]

theorem dumpEntriesRest_cons (e : String × PyVal) (es : List (String × PyVal)) :
    dumpEntriesRest (e :: es)
      = ',' :: (('"' :: (escStr e.1.data ++ '"' :: ':' :: dumpVal e.2))
                ++ dumpEntriesRest es) := by
  obtain ⟨k, v⟩ := e
  rw [dumpEntriesRest.eq_def]

theorem dumpVal_cons (v : PyVal) :
    ∃ c tl, dumpVal v = c :: tl ∧ c ≠ ']' ∧ c ≠ closeB := by
  cases v with
  | none => exact ⟨'n', _, dumpVal_none, by decide, by decide⟩
  | bool b =>
    cases b
    · exact ⟨'f', ['a', 'l', 's', 'e'], dumpVal_false, by decide, by decide⟩
    · exact ⟨'t', ['r', 'u', 'e'], dumpVal_true, by decide, by decide⟩
  | int n =>
    rw [dumpVal_int]
    unfold dumpInt
    split
    · exact ⟨'-', _, rfl, by decide, by decide⟩
    · obtain ⟨d, tl, hd, he⟩ := natDigs_cons n.toNat
      rw [he]
      exact ⟨digitChar d, tl, rfl,
        ne_of_isDigit (isDigit_digitChar d) (by decide),
        ne_of_isDigit (isDigit_digitChar d) (by decide)⟩
  | str s => exact ⟨'"', _, dumpVal_str s, by decide, by decide⟩
  | list xs => exact ⟨'[', _, dumpVal_list xs, by decide, by decide⟩
  | dict es => exact ⟨openB, _, dumpVal_dict es, by decide, by decide⟩

set_option maxHeartbeats 2000000 in
theorem parseVal_succ (fuel : Nat) (c : Char) (rest : List Char) :
    parseVal (fuel + 1) (c :: rest) =
      (if c = '"' then
        (parseStrBody rest).map (fun p => (.str (String.mk p.1), p.2))
      else if c = '[' then
        (parseItems fuel rest).map (fun p => (.list p.1, p.2))
      else if c = openB then
        (parseEntries fuel rest).map (fun p => (.dict p.1, p.2))
      else if c = '-' then
        parseNeg rest
      else if c.isDigit then
        let p := parseDigits 0 (c :: rest)
        some (.int (p.1 : Int), p.2)
      else parseKeyword c rest) := by
  rw [parseVal.eq_def]

theorem parseItems_succ (fuel : Nat) (c : Char) (rest : List Char) :
    parseItems (fuel + 1) (c :: rest) =
      (if c = ']' then some ([], rest)
      else
        match parseVal fuel (c :: rest) with
        | some (v, r) =>
          match r with
          | [] => Option.none
          | c2 :: r2 =>
            if c2 = ',' then
              match parseItems fuel r2 with
              | some (xs, r3) => some (v :: xs, r3)
              | Option.none => Option.none
            else if c2 = ']' then some ([v], r2)
            else Option.none
        | Option.none => Option.none) := by
  rw [parseItems.eq_def]

theorem parseEntries_succ (fuel : Nat) (c : Char) (rest : List Char) :
    parseEntries (fuel + 1) (c :: rest) =
      (if c = closeB then some ([], rest)
      else if c = '"' then
        match parseStrBody rest with
        | some (k, r1) =>
          match r1 with
          | [] => Option.none
          | c2 :: r2 =>
            if c2 = ':' then
              match parseVal fuel r2 with
              | some (v, r3) =>
                match r3 with
                | [] => Option.none
                | c3 :: r4 =>
                  if c3 = ',' then
                    match parseEntries fuel r4 with
                    | some (es, r5) => some ((String.mk k, v) :: es, r5)
                    | Option.none => Option.none
                  else if c3 = closeB then some ([(String.mk k, v)], r4)
                  else Option.none
              | Option.none => Option.none
            else Option.none
        | Option.none => Option.none
      else Option.none) := by
  rw [parseEntries.eq_def]

theorem parseVal_num (fuel : Nat) (m : Nat) (rest : List Char) (hld : noLeadDigit rest) :
    parseVal (fuel + 1) (natDigs m ++ rest) = some (.int (m : Int), rest) := by
  obtain ⟨d, tl, hd, he⟩ := natDigs_cons m
  have hpd : parseDigits 0 (digitChar d :: (tl ++ rest)) = (m, rest) := by
    rw [show digitChar d :: (tl ++ rest) = natDigs m ++ rest by rw [he]; rfl]
    exact parseDigits_natDigs hld
  rw [he, List.cons_append, parseVal_succ]
  rw [if_neg (ne_of_isDigit (isDigit_digitChar d) (by decide)),
    if_neg (ne_of_isDigit (isDigit_digitChar d) (by decide)),
    if_neg (ne_of_isDigit (isDigit_digitChar d) (by decide)),
    if_neg (ne_of_isDigit (isDigit_digitChar d) (by decide)),
    if_pos (isDigit_digitChar d)]
  simp [hpd]

theorem parseVal_negnum (fuel : Nat) (m : Nat) (rest : List Char) (hld : noLeadDigit rest) :
    parseVal (fuel + 1) ('-' :: (natDigs m ++ rest)) = some (.int (-(m : Int)), rest) := by
  obtain ⟨d, tl, hd, he⟩ := natDigs_cons m
  have hpd : parseDigits 0 (digitChar d :: (tl ++ rest)) = (m, rest) := by
    rw [show digitChar d :: (tl ++ rest) = natDigs m ++ rest by rw [he]; rfl]
    exact parseDigits_natDigs hld
  rw [he, List.cons_append, parseVal_succ]
  rw [if_neg (by decide), if_neg (by decide), if_neg (by decide), if_pos rfl]
  unfold parseNeg
  simp [isDigit_digitChar, hpd]

theorem parse_dump_master : ∀ fuel : Nat,
    (∀ v rest, (dumpVal v).length < fuel → noLeadDigit rest →
      parseVal fuel (dumpVal v ++ rest) = some (v, rest)) ∧
    (∀ xs rest, (dumpItems xs).length + 1 < fuel →
      parseItems fuel (dumpItems xs ++ ']' :: rest) = some (xs, rest)) ∧
    (∀ es rest, (dumpEntries es).length + 1 < fuel →
      parseEntries fuel (dumpEntries es ++ closeB :: rest) = some (es, rest)) := by
  intro fuel
  induction fuel with
  | zero =>
    refine ⟨?_, ?_, ?_⟩
    · intro v rest h _
      omega
    · intro xs rest h
      omega
    · intro es rest h
      omega
  | succ fuel ih =>
    obtain ⟨ihv, ihi, ihe⟩ := ih
    refine ⟨?_, ?_, ?_⟩
    · intro v rest hlen hld
      cases v with
      | none =>
        rw [dumpVal_none]
        rw [show nullChars ++ rest = 'n' :: 'u' :: 'l' :: 'l' :: rest from rfl]
        rw [parseVal_succ]
        rw [if_neg (by decide), if_neg (by decide), if_neg (by decide),
          if_neg (by decide), if_neg (by decide)]
        rfl
      | bool b =>
        cases b
        · rw [dumpVal_false]
          rw [show falseChars ++ rest = 'f' :: 'a' :: 'l' :: 's' :: 'e' :: rest from rfl]
          rw [parseVal_succ]
          rw [if_neg (by decide), if_neg (by decide), if_neg (by decide),
            if_neg (by decide), if_neg (by decide)]
          rfl
        · rw [dumpVal_true]
          rw [show trueChars ++ rest = 't' :: 'r' :: 'u' :: 'e' :: rest from rfl]
          rw [parseVal_succ]
          rw [if_neg (by decide), if_neg (by decide), if_neg (by decide),
            if_neg (by decide), if_neg (by decide)]
          rfl
      | int n =>
        rw [dumpVal_int]
        unfold dumpInt
        by_cases hneg : n < 0
        · rw [if_pos hneg, List.cons_append, parseVal_negnum fuel (-n).toNat rest hld]
          congr 1
          congr 1
          congr 1
          omega
        · rw [if_neg hneg, parseVal_num fuel n.toNat rest hld]
          congr 1
          congr 1
          congr 1
          omega
      | str s =>
        rw [dumpVal_str]
        rw [show ('"' :: (escStr s.data ++ ['"'])) ++ rest
            = '"' :: (escStr s.data ++ '"' :: rest) from by simp]
        rw [parseVal_succ, if_pos rfl]
        simp [parseStrBody_esc s.data rest, strMk_data]
      | list xs =>
        rw [dumpVal_list] at hlen ⊢
        rw [show ('[' :: (dumpItems xs ++ [']'])) ++ rest
            = '[' :: (dumpItems xs ++ ']' :: rest) from by simp]
        rw [parseVal_succ]
        rw [if_neg (by decide), if_pos rfl]
        have hi' := ihi xs rest (by
          simp only [List.length_cons, List.length_append, List.length_nil] at hlen
          omega)
        simp [hi']
      | dict es =>
        rw [dumpVal_dict] at hlen ⊢
        rw [show (openB :: (dumpEntries es ++ [closeB])) ++ rest
            = openB :: (dumpEntries es ++ closeB :: rest) from by simp]
        rw [parseVal_succ]
        rw [if_neg (by decide), if_neg (by decide), if_pos rfl]
        have he' := ihe es rest (by
          simp only [List.length_cons, List.length_append, List.length_nil] at hlen
          omega)
        simp [he']
    · intro xs rest hlen
      cases xs with
      | nil =>
        rw [dumpItems_nil, List.nil_append, parseItems_succ, if_pos rfl]
      | cons x xs' =>
        obtain ⟨c, tl, hcx, hne1, hne2⟩ := dumpVal_cons x
        have hlx : 1 ≤ (dumpVal x).length := by
          rw [hcx]
          simp
        cases xs' with
        | nil =>
          rw [dumpItems_cons, dumpItemsRest_nil, List.append_nil] at hlen ⊢
          have hv' : parseVal fuel (dumpVal x ++ ']' :: rest) = some (x, ']' :: rest) :=
            ihv x (']' :: rest) (by omega) (by simp [noLeadDigit])
          rw [hcx, List.cons_append, parseItems_succ, if_neg hne1]
          rw [show c :: (tl ++ ']' :: rest) = dumpVal x ++ ']' :: rest from by rw [hcx]; rfl]
          simp [hv']
        | cons y ys =>
          rw [dumpItems_cons] at hlen ⊢
          have hrest2 : dumpItemsRest (y :: ys) = ',' :: dumpItems (y :: ys) := by
            rw [dumpItemsRest_cons, dumpItems_cons]
          rw [hrest2] at hlen ⊢
          simp only [List.length_append, List.length_cons] at hlen
          rw [List.append_assoc, List.cons_append]
          have hv' : parseVal fuel (dumpVal x ++ ',' :: (dumpItems (y :: ys) ++ ']' :: rest))
              = some (x, ',' :: (dumpItems (y :: ys) ++ ']' :: rest)) :=
            ihv x _ (by omega) (by simp [noLeadDigit])
          have hi' : parseItems fuel (dumpItems (y :: ys) ++ ']' :: rest)
              = some (y :: ys, rest) :=
            ihi (y :: ys) rest (by rw [dumpItems_cons]; rw [dumpItems_cons] at hlen; omega)
          rw [hcx, List.cons_append, parseItems_succ, if_neg hne1]
          rw [show c :: (tl ++ ',' :: (dumpItems (y :: ys) ++ ']' :: rest))
              = dumpVal x ++ ',' :: (dumpItems (y :: ys) ++ ']' :: rest) from by rw [hcx]; rfl]
          simp [hv', hi']
    · intro es rest hlen
      cases es with
      | nil =>
        rw [dumpEntries_nil, List.nil_append, parseEntries_succ, if_pos rfl]
      | cons e es' =>
        obtain ⟨k, v⟩ := e
        have hlv : 1 ≤ (dumpVal v).length := by
          obtain ⟨c, tl, hcx, -, -⟩ := dumpVal_cons v
          rw [hcx]
          simp
        cases es' with
        | nil =>
          rw [dumpEntries_cons, dumpEntriesRest_nil, List.append_nil] at hlen ⊢
          simp only [List.length_cons, List.length_append] at hlen
          simp only [List.append_assoc, List.cons_append]
          rw [parseEntries_succ, if_neg (by decide), if_pos rfl]
          rw [parseStrBody_esc k.data]
          have hv' : parseVal fuel (dumpVal v ++ closeB :: rest) = some (v, closeB :: rest) :=
            ihv v (closeB :: rest) (by omega) (by simp only [noLeadDigit]; decide)
          have hnc : ¬(closeB = ',') := by decide
          simp [hv', strMk_data, hnc]
        | cons f fs =>
          rw [dumpEntries_cons] at hlen ⊢
          have hrest2 : dumpEntriesRest (f :: fs) = ',' :: dumpEntries (f :: fs) := by
            rw [dumpEntriesRest_cons, dumpEntries_cons]
          rw [hrest2] at hlen ⊢
          simp only [List.length_append, List.length_cons] at hlen
          simp only [List.append_assoc, List.cons_append]
          rw [parseEntries_succ, if_neg (by decide), if_pos rfl]
          rw [parseStrBody_esc k.data]
          have hv' : parseVal fuel
                (dumpVal v ++ ',' :: (dumpEntries (f :: fs) ++ closeB :: rest))
              = some (v, ',' :: (dumpEntries (f :: fs) ++ closeB :: rest)) :=
            ihv v _ (by omega) (by simp [noLeadDigit])
          have he' : parseEntries fuel (dumpEntries (f :: fs) ++ closeB :: rest)
              = some (f :: fs, rest) :=
            ihe (f :: fs) rest (by omega)
          simp [hv', he', strMk_data]

theorem dump_roundtrip (v : PyVal) :
    parseVal ((dumpVal v).length + 1) (dumpVal v) = some (v, []) := by
  have h := (parse_dump_master ((dumpVal v).length + 1)).1 v []
    (by omega) (by simp [noLeadDigit])
  rw [List.append_nil] at h
  exact h

/-- C6: serializing a validated document with the JSON projection and
re-loading the serialized text yields the same document, hence a document
with the same (successful) validation outcome. -/
theorem json_roundtrip_validation (config : PyVal)
    (hv : validate_errors config = .ok []) :
    yaml_load_str (export_json config) = some config ∧
    ∃ doc, yaml_load_str (export_json config) = some doc ∧
      validate_errors doc = .ok [] := by
  have hrt : yaml_load_str (export_json config) = some config := by
    unfold yaml_load_str
    rw [show (export_json config).data = dumpVal config from rfl]
    rw [dump_roundtrip config]
  exact ⟨hrt, config, hrt, hv⟩

/-- Witness for C6 on a concrete validated document, with its serialized
JSON text evaluated explicitly. -/
theorem json_roundtrip_validation_witness :
    validate_errors cMain = .ok [] ∧
    export_json cMain =
      "\x7b\"metadata\":\x7b\"environment_name\":\"prod\"\x7d,\"npm\":\x7b\"enabled\":true,\"packages\":[\"left-pad\"]\x7d\x7d" ∧
    yaml_load_str (export_json cMain) = some cMain := by
  exact ⟨rfl, rfl, (json_roundtrip_validation cMain rfl).1⟩

/-- Witness for (amended) C4: a missing file exits 1 with the diagnostic; a
validated document in validate-only mode exits 0. -/
theorem exit_zero_iff_witness :
    (runMain "cfg.yaml" .missing false .json (fun _ => "")).exitCode = 1 ∧
    (runMain "cfg.yaml" .missing false .json (fun _ => "")).stderr =
      ["Error: Configuration file not found: cfg.yaml"] ∧
    (runMain "cfg.yaml" (.parsed cMain) true .json (fun _ => "")).exitCode = 0 := by
  obtain ⟨h1, h2⟩ := (exit_zero_iff "cfg.yaml" .missing false .json (fun _ => "")).2.1 rfl
  refine ⟨h1, h2, ?_⟩
  exact (exit_zero_iff "cfg.yaml" (.parsed cMain) true .json (fun _ => "")).1.mpr
    ⟨cMain, rfl, rfl, Or.inl rfl⟩
